import Mathlib

/-!
Verification development for the ClientJobs coordination store
(`nupic/database/ClientJobsDAO.py`).

The database operations are shallowly embedded: a table is a `List` of row
structures, a MySQL `UPDATE` is a map over the rows guarded by the WHERE
predicate, and the rows-affected count follows the changed-rows semantics of
the pymysql driver used by the source (a matched row counts only if the SET
clause actually altered it; the source's docstrings for `jobSetFields` and
`modelSetFields` document exactly this behaviour).  Timestamps
(`UTC_TIMESTAMP()`) are passed in explicitly as a `now : Nat` argument.
Python byte strings holding 16-byte hashes are embedded as `List Char`.
-/

namespace ClientJobsDAO

/-- Job/model `status` column values (`STATUS_XXX` constants). -/
inductive Status where
  | notStarted
  | starting
  | running
  | testMode
  | completed
deriving DecidableEq, Repr

/-- A dynamically-typed SQL cell value, used for the columns that the DAO
reads and writes through its generic field dictionaries. -/
inductive Value where
  | vStr (s : String)
  | vNat (n : Nat)
  | vBool (b : Bool)
  | vNull
deriving DecidableEq, Repr

/-- An SQL FLOAT as far as the DAO inspects it: the only float operation in
the source is the NaN self-equality test `metricValue == metricValue`, so a
float is either NaN or an ordinary number (payload abstracted to `Int`). -/
inductive Flt where
  | nan
  | num (v : Int)
deriving DecidableEq, Repr

/-- IEEE `==` as used by the source's NaN test: NaN compares unequal to
everything, including itself. -/
def Flt.feq : Flt → Flt → Bool
  | .num a, .num b => decide (a = b)
  | _, _ => false

/-- A Python byte string (used for the 16-byte job/model hashes). -/
abbrev Bytes := List Char

/-- `HASH_MAX_LEN = 16`: max size, in bytes, of the job/model hashes. -/
def HASH_MAX_LEN : Nat := 16

/-- `CLIENT_MAX_LEN = 8`: max size, in bytes, of the `client` field. -/
def CLIENT_MAX_LEN : Nat := 8

/-- Translation of `ClientJobsDAO._normalizeHash`: a hash shorter than
`HASH_MAX_LEN` is right-padded with NUL bytes; a longer one trips the
`assert hashLen <= cls.HASH_MAX_LEN` (modelled as `none`). -/
def normalizeHash (hashValue : Bytes) : Option Bytes :=
  let hashLen := hashValue.length
  if hashLen < HASH_MAX_LEN then
    some (hashValue ++ List.replicate (HASH_MAX_LEN - hashLen) '\x00')
  else if hashLen ≤ HASH_MAX_LEN then
    some hashValue
  else
    none

/-- Python's `str.split('_')` on a character list: splits at every
underscore, keeping empty segments (so a leading underscore produces a
leading empty segment, exactly as in Python). -/
def splitUnderscore : List Char → List (List Char)
  | [] => [[]]
  | c :: cs =>
    if c = '_' then
      [] :: splitUnderscore cs
    else
      match splitUnderscore cs with
      | [] => [[c]]
      | w :: ws => (c :: w) :: ws

/-- Python's `word[0].upper() + word[1:]`; `none` models the `IndexError`
raised on an empty word. -/
def capitalizeWord : List Char → Option (List Char)
  | [] => none
  | c :: rest => some (c.toUpper :: rest)

/-- The Python loop `for word in words[1:]: pubWords.append(word[0].upper()
+ word[1:])`: capitalize every later segment and concatenate; `none` when a
segment is empty (IndexError in the source). -/
def capitalizeTail : List (List Char) → Option (List Char)
  | [] => some []
  | w :: ws =>
    match capitalizeWord w, capitalizeTail ws with
    | some cw, some r => some (cw ++ r)
    | _, _ => none

/-- Translation of `ClientJobsDAO._columnNameDBToPublic`: split the storage
column name on `_`, drop the first (empty) segment when the name starts with
an underscore (`dbName.startswith('_')`), keep the first remaining segment
as is and capitalize the first letter of each later segment. -/
def columnNameDBToPublic (dbName : List Char) : Option (List Char) :=
  let words := splitUnderscore dbName
  let words := if dbName.head? = some '_' then words.drop 1 else words
  match words with
  | [] => none
  | w0 :: rest => (capitalizeTail rest).map (fun caps => w0 ++ caps)

/-- Capitalization of one later segment, as the spec describes it (first
letter upper-cased, rest untouched). -/
def capSpec : List Char → List Char
  | [] => []
  | c :: rest => c.toUpper :: rest

/-- The spec's `lowerCamelCase` of a segment list: first segment verbatim,
each later segment with its first letter capitalized, all concatenated. -/
def lowerCamelSpec : List (List Char) → List Char
  | [] => []
  | s :: rest => s ++ (rest.map capSpec).flatten

/-- A `snake_case` storage name built from its segments (underscore-joined). -/
def joinUnderscore : List (List Char) → List Char
  | [] => []
  | [s] => s
  | s :: rest => s ++ '_' :: joinUnderscore rest

theorem splitUnderscore_ne_nil (s : List Char) : splitUnderscore s ≠ [] := by
  cases s with
  | nil => simp [splitUnderscore]
  | cons c cs =>
    simp only [splitUnderscore]
    by_cases h : c = '_'
    · simp [h]
    · simp only [h, if_false]
      cases splitUnderscore cs <;> simp

theorem splitUnderscore_no_underscore (s : List Char) (h : '_' ∉ s) :
    splitUnderscore s = [s] := by
  induction s with
  | nil => rfl
  | cons c cs ih =>
    have hc : c ≠ '_' := fun hc => h (hc ▸ List.mem_cons_self c cs)
    have hcs : '_' ∉ cs := fun hm => h (List.mem_cons_of_mem c hm)
    simp only [splitUnderscore, hc, if_false, ih hcs]

theorem splitUnderscore_append (s rest : List Char) (h : '_' ∉ s) :
    splitUnderscore (s ++ '_' :: rest) = s :: splitUnderscore rest := by
  induction s with
  | nil => simp [splitUnderscore]
  | cons c cs ih =>
    have hc : c ≠ '_' := fun hc => h (hc ▸ List.mem_cons_self c cs)
    have hcs : '_' ∉ cs := fun hm => h (List.mem_cons_of_mem c hm)
    show splitUnderscore (c :: (cs ++ '_' :: rest)) = _
    simp only [splitUnderscore, hc, if_false, List.append_eq]
    rw [ih hcs]

theorem splitUnderscore_joinUnderscore (segs : List (List Char))
    (hne : segs ≠ []) (hseg : ∀ s ∈ segs, '_' ∉ s) :
    splitUnderscore (joinUnderscore segs) = segs := by
  induction segs with
  | nil => exact absurd rfl hne
  | cons s rest ih =>
    cases rest with
    | nil =>
      exact splitUnderscore_no_underscore s (hseg s (List.mem_cons_self s []))
    | cons t ts =>
      have hs : '_' ∉ s := hseg s (List.mem_cons_self s (t :: ts))
      have hrest : ∀ u ∈ t :: ts, '_' ∉ u := fun u hu =>
        hseg u (List.mem_cons_of_mem s hu)
      have hjoin : joinUnderscore (s :: t :: ts) = s ++ '_' :: joinUnderscore (t :: ts) := rfl
      rw [hjoin, splitUnderscore_append s _ hs, ih (by simp) hrest]

theorem capitalizeTail_eq (l : List (List Char)) (h : ∀ s ∈ l, s ≠ []) :
    capitalizeTail l = some ((l.map capSpec).flatten) := by
  induction l with
  | nil => rfl
  | cons s rest ih =>
    cases s with
    | nil => exact absurd rfl (h [] (List.mem_cons_self [] rest))
    | cons c cs =>
      have hrest : ∀ u ∈ rest, u ≠ [] := fun u hu => h u (List.mem_cons_of_mem _ hu)
      show (match capitalizeWord (c :: cs), capitalizeTail rest with
            | some cw, some r => some (cw ++ r)
            | _, _ => none) = _
      rw [ih hrest]
      rfl

theorem columnNameDBToPublic_of_split (dbName s0 : List Char)
    (rest : List (List Char)) (hhead : dbName.head? ≠ some '_')
    (hsplit : splitUnderscore dbName = s0 :: rest) (hrest : ∀ u ∈ rest, u ≠ []) :
    columnNameDBToPublic dbName = some (s0 ++ (rest.map capSpec).flatten) := by
  show (match (if dbName.head? = some '_' then (splitUnderscore dbName).drop 1
               else splitUnderscore dbName) with
        | [] => none
        | w0 :: r => (capitalizeTail r).map (fun caps => w0 ++ caps)) = _
  rw [if_neg hhead, hsplit]
  show (capitalizeTail rest).map (fun caps => s0 ++ caps) = _
  rw [capitalizeTail_eq rest hrest]
  rfl

theorem columnNameDBToPublic_underscore_of_split (dbName s0 : List Char)
    (rest : List (List Char))
    (hsplit : splitUnderscore dbName = s0 :: rest) (hrest : ∀ u ∈ rest, u ≠ []) :
    columnNameDBToPublic ('_' :: dbName) = some (s0 ++ (rest.map capSpec).flatten) := by
  show (match (if ('_' :: dbName).head? = some '_' then (splitUnderscore ('_' :: dbName)).drop 1
               else splitUnderscore ('_' :: dbName)) with
        | [] => none
        | w0 :: r => (capitalizeTail r).map (fun caps => w0 ++ caps)) = _
  have hs : splitUnderscore ('_' :: dbName) = [] :: splitUnderscore dbName := by
    simp [splitUnderscore]
  rw [if_pos (show ('_' :: dbName).head? = some '_' from rfl), hs]
  simp only [List.drop_succ_cons, List.drop_zero]
  rw [hsplit]
  show (capitalizeTail rest).map (fun caps => s0 ++ caps) = _
  rw [capitalizeTail_eq rest hrest]
  rfl

/-- C9: the storage-name → public-name mapping strips a leading underscore
and converts `snake_case` to `lowerCamelCase` (first segment kept, each
later segment's first letter capitalized). -/
theorem C9_columnNameDBToPublic_camel (segs : List (List Char))
    (hne : segs ≠ []) (hseg : ∀ s ∈ segs, s ≠ [] ∧ '_' ∉ s) :
    columnNameDBToPublic (joinUnderscore segs) = some (lowerCamelSpec segs) ∧
    columnNameDBToPublic ('_' :: joinUnderscore segs) = some (lowerCamelSpec segs) := by
  have hsplit : splitUnderscore (joinUnderscore segs) = segs :=
    splitUnderscore_joinUnderscore segs hne (fun s hs => (hseg s hs).2)
  obtain ⟨s0, rest, hcons⟩ : ∃ s0 rest, segs = s0 :: rest := by
    cases segs with
    | nil => exact absurd rfl hne
    | cons a b => exact ⟨a, b, rfl⟩
  subst hcons
  have hrest : ∀ u ∈ rest, u ≠ [] := fun u hu =>
    (hseg u (List.mem_cons_of_mem s0 hu)).1
  have hs0ne : s0 ≠ [] := (hseg s0 (List.mem_cons_self s0 rest)).1
  have hs0u : '_' ∉ s0 := (hseg s0 (List.mem_cons_self s0 rest)).2
  have hhead : (joinUnderscore (s0 :: rest)).head? ≠ some '_' := by
    obtain ⟨c, cs, hs0⟩ : ∃ c cs, s0 = c :: cs := by
      cases s0 with
      | nil => exact absurd rfl hs0ne
      | cons a b => exact ⟨a, b, rfl⟩
    have hj : (joinUnderscore (s0 :: rest)).head? = some c := by
      subst hs0
      cases rest <;> rfl
    rw [hj]
    intro hc
    have hcu : c = '_' := by injection hc
    exact hs0u (hcu ▸ (hs0 ▸ List.mem_cons_self c cs))
  have hcamel : lowerCamelSpec (s0 :: rest) = s0 ++ (rest.map capSpec).flatten := rfl
  rw [hcamel]
  exact ⟨columnNameDBToPublic_of_split _ s0 rest hhead hsplit hrest,
    columnNameDBToPublic_underscore_of_split _ s0 rest hsplit hrest⟩

/-- C9 witness: the mapping on the spec's two examples,
`job_id → jobId` and `_eng_last_update_time → engLastUpdateTime`. -/
theorem C9_columnNameDBToPublic_camel_witness :
    columnNameDBToPublic (joinUnderscore [['j','o','b'], ['i','d']]) =
      some (lowerCamelSpec [['j','o','b'], ['i','d']]) ∧
    columnNameDBToPublic
        ('_' :: joinUnderscore [['e','n','g'], ['l','a','s','t'], ['u','p','d','a','t','e'], ['t','i','m','e']]) =
      some (lowerCamelSpec [['e','n','g'], ['l','a','s','t'], ['u','p','d','a','t','e'], ['t','i','m','e']]) :=
  ⟨(C9_columnNameDBToPublic_camel [['j','o','b'], ['i','d']] (by decide) (by decide)).1,
   (C9_columnNameDBToPublic_camel
      [['e','n','g'], ['l','a','s','t'], ['u','p','d','a','t','e'], ['t','i','m','e']]
      (by decide) (by decide)).2⟩

/-- C8: hashes shorter than 16 bytes are right-padded with NUL to exactly
16 bytes; 16-byte hashes pass through unchanged; longer hashes are rejected
(the length assertion fails). -/
theorem C8_normalizeHash_spec (h : Bytes) :
    (h.length < 16 → normalizeHash h = some (h ++ List.replicate (16 - h.length) '\x00')) ∧
    (h.length = 16 → normalizeHash h = some h) ∧
    (16 < h.length → normalizeHash h = none) := by
  refine ⟨fun hlt => ?_, fun heq => ?_, fun hgt => ?_⟩
  · simp [normalizeHash, HASH_MAX_LEN, hlt]
  · simp [normalizeHash, HASH_MAX_LEN, heq]
  · simp only [normalizeHash, HASH_MAX_LEN]
    rw [if_neg (by omega), if_neg (by omega)]

/-- C8 witness: a 1-byte hash is padded with 15 NUL bytes. -/
theorem C8_normalizeHash_spec_witness :
    normalizeHash ['a'] = some ('a' :: List.replicate 15 '\x00') :=
  (C8_normalizeHash_spec ['a']).1 (by decide)

/-! ## Jobs table -/

/-- One row of the `jobs` table, with the columns the claims touch.  The
scratch text columns written only through the generic field dictionaries
(`jobSetFields` / `jobSetFieldIfEqual`) are kept as dynamically-typed
`Value` cells; `DATETIME DEFAULT 0` columns are `Nat` timestamps. -/
structure JobRow where
  jobId : Nat
  client : Bytes
  clientInfo : String
  clientKey : String
  cmdLine : String
  params : String
  jobHash : Bytes
  status : Status
  completionReason : Value
  completionMsg : Value
  workerCompletionReason : Value
  workerCompletionMsg : Value
  cancel : Value
  startTime : Nat
  endTime : Nat
  results : Value
  engJobType : String
  minimumWorkers : Nat
  maximumWorkers : Nat
  priority : Int
  engAllocateNewWorkers : Value
  engUntendedDeadWorkers : Value
  numFailedWorkers : Nat
  lastFailedWorkerErrorMsg : Value
  engCleaningStatus : Value
  engLastUpdateTime : Nat
  engCjmConnId : Option Nat
  engWorkerState : Value
  engStatus : Value
  engModelMilestones : Value
deriving DecidableEq, Repr

/-- The jobs-table columns addressable via the public-name field
dictionaries of `jobSetFields` / `jobSetFieldIfEqual` in the claims under
study (`_eng_last_update_time` is managed inside the SQL statements
themselves and is never passed as a dictionary key). -/
inductive JobField where
  | cancel
  | results
  | engWorkerState
  | engStatus
  | engModelMilestones
deriving DecidableEq, Repr

/-- Read one dynamically-typed column of a job row. -/
def getJobField (r : JobRow) : JobField → Value
  | .cancel => r.cancel
  | .results => r.results
  | .engWorkerState => r.engWorkerState
  | .engStatus => r.engStatus
  | .engModelMilestones => r.engModelMilestones

/-- Write one dynamically-typed column of a job row (`column=%s` in SET). -/
def setJobField (r : JobRow) : JobField → Value → JobRow
  | .cancel, v => { r with cancel := v }
  | .results, v => { r with results := v }
  | .engWorkerState, v => { r with engWorkerState := v }
  | .engStatus, v => { r with engStatus := v }
  | .engModelMilestones, v => { r with engModelMilestones := v }

/-- Errors surfaced by the DAO: `RuntimeError`, the ownership error
`InvalidConnectionException`, and failed `assert` statements. -/
inductive DBError where
  | runtimeError
  | invalidConnectionException
  | assertionError
deriving DecidableEq, Repr

deriving instance DecidableEq for Except

/-- An SQL `UPDATE`: apply `f` to every row matched by the WHERE
predicate. -/
def updateRows {α : Type} (t : List α) (pred : α → Bool) (f : α → α) : List α :=
  t.map (fun r => if pred r then f r else r)

/-- Rows-affected count of an `UPDATE` under the changed-rows semantics of
the source's MySQL driver: a matched row counts only if the SET clause
actually altered it (the source's `jobSetFields`/`modelSetFields`
docstrings describe this: zero rows are reported when "the data to update
matched the data in the DB exactly"). -/
def numRowsAffected {α : Type} [DecidableEq α] (t : List α) (pred : α → Bool)
    (f : α → α) : Nat :=
  t.countP (fun r => pred r && !(decide (f r = r)))

theorem find?_updateRows {α : Type} (t : List α) (pred q : α → Bool) (f : α → α)
    (hq : ∀ r, q (f r) = q r) :
    (updateRows t pred f).find? q =
      (t.find? q).map (fun r => if pred r then f r else r) := by
  induction t with
  | nil => rfl
  | cons a l ih =>
    show List.find? q ((if pred a then f a else a) :: updateRows l pred f) = _
    rw [List.find?_cons, List.find?_cons]
    have hqa : q (if pred a then f a else a) = q a := by
      by_cases h : pred a <;> simp [h, hq]
    rw [hqa]
    cases hcase : q a with
    | true => rfl
    | false => exact ih

theorem countP_updateRows {α : Type} (t : List α) (pred q : α → Bool) (f : α → α)
    (hq : ∀ r, q (f r) = q r) :
    (updateRows t pred f).countP q = t.countP q := by
  induction t with
  | nil => rfl
  | cons a l ih =>
    show List.countP q ((if pred a then f a else a) :: updateRows l pred f) = _
    rw [List.countP_cons, List.countP_cons, ih]
    have hqa : q (if pred a then f a else a) = q a := by
      by_cases h : pred a <;> simp [h, hq]
    rw [hqa]

theorem updateRows_eq_self {α : Type} (t : List α) (pred : α → Bool) (f : α → α)
    (h : ∀ r ∈ t, pred r = true → f r = r) :
    updateRows t pred f = t := by
  induction t with
  | nil => rfl
  | cons a l ih =>
    show (if pred a then f a else a) :: updateRows l pred f = a :: l
    rw [ih (fun r hr => h r (List.mem_cons_of_mem a hr))]
    by_cases hp : pred a
    · rw [if_pos hp, h a (List.mem_cons_self a l) hp]
    · rw [if_neg hp]

theorem numRowsAffected_eq_zero {α : Type} [DecidableEq α] (t : List α)
    (pred : α → Bool) (f : α → α) (h : ∀ r ∈ t, pred r = true → f r = r) :
    numRowsAffected t pred f = 0 := by
  rw [numRowsAffected, List.countP_eq_zero]
  intro r hr
  by_cases hp : pred r
  · simp [hp, h r hr hp]
  · simp [hp]

theorem countP_le_one_of_pairwise {α : Type} (t : List α) (q : α → Bool)
    (hp : t.Pairwise (fun a b => ¬(q a = true ∧ q b = true))) :
    t.countP q ≤ 1 := by
  induction t with
  | nil => simp [List.countP_nil]
  | cons a l ih =>
    rw [List.countP_cons]
    rcases List.pairwise_cons.mp hp with ⟨ha, hl⟩
    by_cases hq : q a
    · have hzero : l.countP q = 0 := by
        rw [List.countP_eq_zero]
        intro b hb hqb
        exact ha b hb ⟨hq, hqb⟩
      simp [hzero, hq]
    · simp only [hq, if_neg, Bool.false_eq_true, if_false, Nat.add_zero]
      exact Nat.le_trans (ih hl) (Nat.le_refl 1)

theorem countP_pos_of_mem {α : Type} (t : List α) (q : α → Bool) (r : α)
    (hr : r ∈ t) (hq : q r = true) : 1 ≤ t.countP q := by
  induction t with
  | nil => cases hr
  | cons a l ih =>
    rw [List.countP_cons]
    rcases List.mem_cons.mp hr with h | h
    · subst h; simp [hq]
    · exact Nat.le_trans (ih h) (Nat.le_add_right _ _)

theorem countP_eq_one_of_pairwise_mem {α : Type} (t : List α) (q : α → Bool)
    (r : α) (hp : t.Pairwise (fun a b => ¬(q a = true ∧ q b = true)))
    (hr : r ∈ t) (hq : q r = true) : t.countP q = 1 :=
  Nat.le_antisymm (countP_le_one_of_pairwise t q hp) (countP_pos_of_mem t q r hr hq)

theorem eq_of_uniqueJobIds {t : List JobRow} {a b : JobRow}
    (h : t.Pairwise (fun a b => a.jobId ≠ b.jobId)) (ha : a ∈ t) (hb : b ∈ t)
    (hid : a.jobId = b.jobId) : a = b := by
  by_contra hne
  exact h.forall (fun _ _ hxy => Ne.symm hxy) ha hb hne hid

/-- WHERE `job_id=%s` match. -/
def jobIdMatch (jobID : Nat) (r : JobRow) : Bool :=
  decide (r.jobId = jobID)

/-- Jobs-table rows are pairwise distinct in `job_id` (PRIMARY KEY). -/
def uniqueJobIds (t : List JobRow) : Prop :=
  t.Pairwise (fun a b => a.jobId ≠ b.jobId)

/-- First row with the given `job_id` (the `_getOneMatchingRow` helpers
return the first match of a `LIMIT 1` query). -/
def findJobRow (t : List JobRow) (jobID : Nat) : Option JobRow :=
  t.find? (jobIdMatch jobID)

/-- SET clause of `_startJobWithRetries`: `status=running,
_eng_cjm_conn_id=connId, start_time=now, _eng_last_update_time=now`. -/
def startJobSet (connId now : Nat) (r : JobRow) : JobRow :=
  { r with
    status := Status.running
    engCjmConnId := some connId
    startTime := now
    engLastUpdateTime := now }

/-- WHERE clause of `_startJobWithRetries`: `job_id=jobID AND
status=notStarted`. -/
def startJobWhere (jobID : Nat) (r : JobRow) : Bool :=
  decide (r.jobId = jobID) && decide (r.status = Status.notStarted)

/-- Translation of `ClientJobsDAO._startJobWithRetries`: `UPDATE jobs SET
status=running, _eng_cjm_conn_id=connId, start_time=now,
_eng_last_update_time=now WHERE job_id=jobID AND status=notStarted`.  When
the affected count is not 1 the source only logs a warning; the count is
returned so theorems can speak about it. -/
def startJobWithRetries (t : List JobRow) (connId jobID now : Nat) :
    List JobRow × Nat :=
  (updateRows t (startJobWhere jobID) (startJobSet connId now),
   numRowsAffected t (startJobWhere jobID) (startJobSet connId now))

/-- Translation of `ClientJobsDAO.jobStartNext`: select any one job with
`status=notStarted` (first match), then run `_startJobWithRetries` on it and
return its `jobId`; `none` only when the select finds nothing.  `tSelect` is
the table at SELECT time and `tUpdate` the table at UPDATE time (another
session may have claimed the job in between). -/
def jobStartNext (tSelect tUpdate : List JobRow) (connId now : Nat) :
    List JobRow × Option Nat :=
  match tSelect.find? (fun r => decide (r.status = Status.notStarted)) with
  | none => (tUpdate, none)
  | some r => ((startJobWithRetries tUpdate connId r.jobId now).1, some r.jobId)

/-- SET clause of `_resumeJobNoRetries`: reset `status` to the initial
state, clear the terminal annotations and worker-pool counters to their DDL
defaults, refresh `_eng_last_update_time`, and (depending on
`alreadyRunning`) either stamp or clear the CJM connection id and start
time. -/
def resumeSet (connId : Nat) (alreadyRunning : Bool) (now : Nat)
    (r : JobRow) : JobRow :=
  let initStatus := if alreadyRunning then Status.testMode else Status.notStarted
  let r1 := { r with
    status := initStatus
    completionReason := Value.vNull
    completionMsg := Value.vNull
    workerCompletionReason := Value.vStr "success"
    workerCompletionMsg := Value.vNull
    endTime := 0
    cancel := Value.vBool false
    engLastUpdateTime := now
    engAllocateNewWorkers := Value.vBool true
    engUntendedDeadWorkers := Value.vBool false
    numFailedWorkers := 0
    lastFailedWorkerErrorMsg := Value.vNull
    engCleaningStatus := Value.vStr "notdone" }
  if alreadyRunning then { r1 with engCjmConnId := some connId, startTime := now }
  else { r1 with engCjmConnId := none, startTime := 0 }

/-- WHERE clause of `_resumeJobNoRetries`: `job_id=jobID AND
status=completed`. -/
def resumeWhere (jobID : Nat) (r : JobRow) : Bool :=
  decide (r.jobId = jobID) && decide (r.status = Status.completed)

/-- Translation of `ClientJobsDAO._resumeJobNoRetries`: `UPDATE jobs SET
<resumeSet> WHERE job_id=jobID AND status=completed`.  A zero-row outcome
is logged, not raised. -/
def resumeJobNoRetries (t : List JobRow) (connId jobID : Nat)
    (alreadyRunning : Bool) (now : Nat) : List JobRow :=
  updateRows t (resumeWhere jobID) (resumeSet connId alreadyRunning now)

/-- `jobGetFields(jobID, ['status'])`: read the job's status;
`RuntimeError` when the row is missing (`jobsGetFields` with
`requireAll=True`). -/
def jobGetStatus (t : List JobRow) (jobID : Nat) : Except DBError Status :=
  match findJobRow t jobID with
  | some r => .ok r.status
  | none => .error .runtimeError

/-- Translation of `ClientJobsDAO.jobResume`: read the job's status, raise
`RuntimeError` unless it is `completed`, then run `_resumeJobNoRetries`. -/
def jobResume (t : List JobRow) (connId jobID : Nat) (alreadyRunning : Bool)
    (now : Nat) : List JobRow × Except DBError Unit :=
  match jobGetStatus t jobID with
  | .error e => (t, .error e)
  | .ok st =>
    if st = Status.completed then
      (resumeJobNoRetries t connId jobID alreadyRunning now, .ok ())
    else
      (t, .error .runtimeError)

/-- SET clause of `jobSetFields`: apply the caller's public-name field/value
dictionary in order. -/
def setFieldsSet (fields : List (JobField × Value)) (r : JobRow) : JobRow :=
  fields.foldl (fun acc fv => setJobField acc fv.1 fv.2) r

/-- WHERE clause of `jobSetFields`: `job_id=%s [AND _eng_cjm_conn_id=%s]`. -/
def setFieldsWhere (connId jobID : Nat) (useConnectionID : Bool) (r : JobRow) : Bool :=
  decide (r.jobId = jobID) &&
    (!useConnectionID || decide (r.engCjmConnId = some connId))

/-- Translation of `ClientJobsDAO.jobSetFields`: `UPDATE jobs SET <fields>
WHERE job_id=%s [AND _eng_cjm_conn_id=%s]`; `RuntimeError` when the
affected count (changed-rows) is not 1 and `ignoreUnchanged` is unset. -/
def jobSetFields (t : List JobRow) (connId jobID : Nat)
    (fields : List (JobField × Value)) (useConnectionID ignoreUnchanged : Bool) :
    List JobRow × Except DBError Unit :=
  let result := numRowsAffected t (setFieldsWhere connId jobID useConnectionID)
    (setFieldsSet fields)
  (updateRows t (setFieldsWhere connId jobID useConnectionID) (setFieldsSet fields),
   if result ≠ 1 ∧ ¬ignoreUnchanged then .error .runtimeError else .ok ())

/-- Translation of `ClientJobsDAO.jobCancel`: `jobSetFields(jobID,
\x7b"cancel": True\x7d, useConnectionID=False)` with the default
`ignoreUnchanged=False`. -/
def jobCancel (t : List JobRow) (connId jobID : Nat) :
    List JobRow × Except DBError Unit :=
  jobSetFields t connId jobID [(JobField.cancel, Value.vBool true)] false false

/-- SET clause of `jobSetFieldIfEqual`: `_eng_last_update_time=now,
<field>=new`. -/
def casSet (fieldName : JobField) (newValue : Value) (now : Nat) (r : JobRow) : JobRow :=
  setJobField { r with engLastUpdateTime := now } fieldName newValue

/-- WHERE clause of `jobSetFieldIfEqual`: `job_id=%s AND <field>=cur` (the
source's `IS TRUE/FALSE` and `IS NULL` condition forms all collapse to
equality of the embedded `Value` cells). -/
def casWhere (jobID : Nat) (fieldName : JobField) (curValue : Value) (r : JobRow) : Bool :=
  decide (r.jobId = jobID) && decide (getJobField r fieldName = curValue)

/-- Translation of `ClientJobsDAO.jobSetFieldIfEqual`: `UPDATE jobs SET
_eng_last_update_time=now, <field>=new WHERE job_id=%s AND <field>=cur`;
returns whether exactly one row was affected. -/
def jobSetFieldIfEqual (t : List JobRow) (jobID : Nat) (fieldName : JobField)
    (newValue curValue : Value) (now : Nat) : List JobRow × Bool :=
  (updateRows t (casWhere jobID fieldName curValue) (casSet fieldName newValue now),
   decide (numRowsAffected t (casWhere jobID fieldName curValue)
     (casSet fieldName newValue now) = 1))

theorem setJobField_jobId (r : JobRow) (f : JobField) (v : Value) :
    (setJobField r f v).jobId = r.jobId := by
  cases f <;> rfl

theorem startJobSet_jobId (connId now : Nat) (r : JobRow) :
    (startJobSet connId now r).jobId = r.jobId := rfl

theorem resumeSet_jobId (connId : Nat) (a : Bool) (now : Nat) (r : JobRow) :
    (resumeSet connId a now r).jobId = r.jobId := by
  cases a <;> rfl

theorem setFieldsSet_jobId (fields : List (JobField × Value)) (r : JobRow) :
    (setFieldsSet fields r).jobId = r.jobId := by
  induction fields generalizing r with
  | nil => rfl
  | cons fv rest ih =>
    show (setFieldsSet rest (setJobField r fv.1 fv.2)).jobId = r.jobId
    rw [ih, setJobField_jobId]

theorem casSet_jobId (f : JobField) (v : Value) (now : Nat) (r : JobRow) :
    (casSet f v now r).jobId = r.jobId := by
  cases f <;> rfl

/-- A concrete job row (DDL column defaults) used in witnesses and
counterexamples. -/
def demoJob (jobId : Nat) (st : Status) : JobRow :=
  { jobId := jobId, client := ['U', 'I'], clientInfo := "", clientKey := "",
    cmdLine := "run", params := "", jobHash := List.replicate 16 '\x00',
    status := st, completionReason := Value.vNull, completionMsg := Value.vNull,
    workerCompletionReason := Value.vStr "success",
    workerCompletionMsg := Value.vNull, cancel := Value.vBool false,
    startTime := 0, endTime := 0, results := Value.vNull, engJobType := "test",
    minimumWorkers := 0, maximumWorkers := 0, priority := 0,
    engAllocateNewWorkers := Value.vBool true,
    engUntendedDeadWorkers := Value.vBool false, numFailedWorkers := 0,
    lastFailedWorkerErrorMsg := Value.vNull,
    engCleaningStatus := Value.vStr "notdone", engLastUpdateTime := 0,
    engCjmConnId := none, engWorkerState := Value.vNull,
    engStatus := Value.vNull, engModelMilestones := Value.vNull }

/-- C1 counterexample: job 1 is `notStarted` at SELECT time but already
claimed (running, owned by connection 99) at UPDATE time.  The predicated
update affects zero rows, yet `jobStartNext` still returns `some 1` — not
the "no work" `none` the claim asserts — and the table keeps the other
session's claim. -/
theorem C1_jobStartNext_counterexample :
    (jobStartNext [demoJob 1 Status.notStarted]
        [{ demoJob 1 Status.running with engCjmConnId := some 99 }] 5 10).2 = some 1
    ∧ (startJobWithRetries
        [{ demoJob 1 Status.running with engCjmConnId := some 99 }] 5 1 10).2 = 0
    ∧ (jobStartNext [demoJob 1 Status.notStarted]
        [{ demoJob 1 Status.running with engCjmConnId := some 99 }] 5 10).1 =
      [{ demoJob 1 Status.running with engCjmConnId := some 99 }] := by
  decide

/-- C1 amended: `jobStartNext` returns `none` iff no `notStarted` job
exists at SELECT time; whenever a job is selected its `jobId` is returned
even if the predicated update affected no row (the source merely logs a
warning in that case); and when the selected job is still `notStarted` at
UPDATE time it transitions to `running` with the caller's `connId` and a
fresh `startTime`. -/
theorem C1_jobStartNext_amended (tSelect tUpdate : List JobRow)
    (connId now : Nat) :
    ((jobStartNext tSelect tUpdate connId now).2 = none ↔
      tSelect.find? (fun r => decide (r.status = Status.notStarted)) = none)
    ∧ (∀ r, tSelect.find? (fun r => decide (r.status = Status.notStarted)) = some r →
        (jobStartNext tSelect tUpdate connId now).2 = some r.jobId
        ∧ (∀ r', findJobRow tUpdate r.jobId = some r' →
            r'.status = Status.notStarted →
            findJobRow (jobStartNext tSelect tUpdate connId now).1 r.jobId =
              some (startJobSet connId now r'))) := by
  cases hsel : tSelect.find? (fun r => decide (r.status = Status.notStarted)) with
  | none =>
    refine ⟨by simp [jobStartNext, hsel], fun r hr => ?_⟩
    cases hr
  | some r0 =>
    constructor
    · simp [jobStartNext, hsel]
    · intro r hr
      injection hr with hr
      subst hr
      refine ⟨by simp [jobStartNext, hsel], fun r' hfind hst => ?_⟩
      have hstep : (jobStartNext tSelect tUpdate connId now).1 =
          (startJobWithRetries tUpdate connId r0.jobId now).1 := by
        simp [jobStartNext, hsel]
      rw [hstep]
      have hq : ∀ x : JobRow,
          jobIdMatch r0.jobId (startJobSet connId now x) = jobIdMatch r0.jobId x :=
        fun x => by simp [jobIdMatch, startJobSet_jobId]
      show findJobRow (updateRows tUpdate (startJobWhere r0.jobId) (startJobSet connId now)) r0.jobId = _
      rw [findJobRow, find?_updateRows tUpdate (startJobWhere r0.jobId)
        (jobIdMatch r0.jobId) (startJobSet connId now) hq]
      rw [findJobRow] at hfind
      rw [hfind]
      have hpr : r'.jobId = r0.jobId := by
        have := List.find?_some hfind
        simpa [jobIdMatch] using this
      show some (if startJobWhere r0.jobId r' then startJobSet connId now r' else r') = _
      rw [if_pos (by simp [startJobWhere, hpr, hst])]

/-- C1 amended witness: on a one-job table the selected job is returned and
started. -/
theorem C1_jobStartNext_amended_witness :
    (jobStartNext [demoJob 1 Status.notStarted] [demoJob 1 Status.notStarted] 5 10).2 =
      some (demoJob 1 Status.notStarted).jobId
    ∧ findJobRow (jobStartNext [demoJob 1 Status.notStarted]
        [demoJob 1 Status.notStarted] 5 10).1 (demoJob 1 Status.notStarted).jobId =
      some (startJobSet 5 10 (demoJob 1 Status.notStarted)) := by
  have h := (C1_jobStartNext_amended [demoJob 1 Status.notStarted]
    [demoJob 1 Status.notStarted] 5 10).2 (demoJob 1 Status.notStarted) (by decide)
  exact ⟨h.1, h.2 (demoJob 1 Status.notStarted) (by decide) (by decide)⟩

/-- C3 counterexample: on a single completed job, the first `jobResume`
succeeds and leaves `status = notStarted`, but the second `jobResume`
raises `RuntimeError` (its pre-check demands `status = completed`) instead
of being a logged no-op. -/
theorem C3_jobResume_twice_counterexample :
    (jobResume [demoJob 1 Status.completed] 7 1 false 5).2 = Except.ok ()
    ∧ (findJobRow (jobResume [demoJob 1 Status.completed] 7 1 false 5).1 1).map
        JobRow.status = some Status.notStarted
    ∧ (jobResume (jobResume [demoJob 1 Status.completed] 7 1 false 5).1
        7 1 false 6).2 = Except.error DBError.runtimeError := by
  decide

/-- C3 amended: a first `jobResume` on a completed job succeeds and leaves
the job `notStarted`; a second `jobResume` in succession raises
`RuntimeError` (the public pre-check requires `status = completed`) and
leaves the table untouched.  The logged-no-op tolerance lives one level
down: `_resumeJobNoRetries` on a job that is no longer `completed` changes
nothing and raises nothing. -/
theorem C3_jobResume_twice_amended (t : List JobRow) (connId jobID now1 now2 : Nat)
    (r : JobRow) (hr : findJobRow t jobID = some r)
    (hst : r.status = Status.completed) :
    ((jobResume t connId jobID false now1).2 = Except.ok ()
      ∧ (findJobRow (jobResume t connId jobID false now1).1 jobID).map
          JobRow.status = some Status.notStarted)
    ∧ ((jobResume (jobResume t connId jobID false now1).1 connId jobID false now2).2 =
          Except.error DBError.runtimeError
      ∧ (jobResume (jobResume t connId jobID false now1).1 connId jobID false now2).1 =
          (jobResume t connId jobID false now1).1)
    ∧ (∀ t' r', uniqueJobIds t' → findJobRow t' jobID = some r' →
        r'.status ≠ Status.completed →
        resumeJobNoRetries t' connId jobID false now2 = t') := by
  have hrid : r.jobId = jobID := by
    have := List.find?_some hr
    simpa [jobIdMatch] using this
  have hq : ∀ x : JobRow,
      jobIdMatch jobID (resumeSet connId false now1 x) = jobIdMatch jobID x :=
    fun x => by simp [jobIdMatch, resumeSet_jobId]
  have hcall1 : jobResume t connId jobID false now1 =
      (resumeJobNoRetries t connId jobID false now1, Except.ok ()) := by
    rw [jobResume, jobGetStatus, hr]
    simp [hst]
  have hfind1 : findJobRow (resumeJobNoRetries t connId jobID false now1) jobID =
      some (resumeSet connId false now1 r) := by
    rw [resumeJobNoRetries, findJobRow, find?_updateRows t (resumeWhere jobID)
      (jobIdMatch jobID) (resumeSet connId false now1) hq]
    rw [findJobRow] at hr
    rw [hr]
    show some (if resumeWhere jobID r then resumeSet connId false now1 r else r) = _
    rw [if_pos (by simp [resumeWhere, hrid, hst])]
  have hstat : (resumeSet connId false now1 r).status = Status.notStarted := rfl
  have hcall1a : (jobResume t connId jobID false now1).1 =
      resumeJobNoRetries t connId jobID false now1 := by rw [hcall1]
  have hcall1b : (jobResume t connId jobID false now1).2 = Except.ok () := by
    rw [hcall1]
  have hcall2 : jobResume (resumeJobNoRetries t connId jobID false now1)
      connId jobID false now2 =
      (resumeJobNoRetries t connId jobID false now1,
       Except.error DBError.runtimeError) := by
    rw [jobResume, jobGetStatus, hfind1]
    simp [hstat]
  refine ⟨⟨hcall1b, ?_⟩, ⟨?_, ?_⟩, ?_⟩
  · rw [hcall1a, hfind1]
    show some (resumeSet connId false now1 r).status = _
    rw [hstat]
  · rw [hcall1a, hcall2]
  · rw [hcall1a, hcall2]
  · intro t' r' hu hfind' hst'
    apply updateRows_eq_self
    intro x hx hpx
    exfalso
    have hpx2 : x.jobId = jobID ∧ x.status = Status.completed := by
      simpa [resumeWhere] using hpx
    have hmem : r' ∈ t' := List.mem_of_find?_eq_some hfind'
    have hrid2 : r'.jobId = jobID := by
      have := List.find?_some hfind'
      simpa [jobIdMatch] using this
    have hxr : x = r' := eq_of_uniqueJobIds hu hx hmem (hpx2.1.trans hrid2.symm)
    exact hst' (hxr ▸ hpx2.2)

/-- C3 amended witness: concrete double-resume on a one-job table; the
second call raises `RuntimeError`. -/
theorem C3_jobResume_twice_amended_witness :
    (jobResume (jobResume [demoJob 1 Status.completed] 7 1 false 5).1
      7 1 false 6).2 = Except.error DBError.runtimeError :=
  (C3_jobResume_twice_amended [demoJob 1 Status.completed] 7 1 5 6
    (demoJob 1 Status.completed) (by decide) (by decide)).2.1.1

theorem casSet_engLastUpdateTime (f : JobField) (v : Value) (now : Nat)
    (r : JobRow) : (casSet f v now r).engLastUpdateTime = now := by
  cases f <;> rfl

theorem getJobField_casSet (f : JobField) (v : Value) (now : Nat) (r : JobRow) :
    getJobField (casSet f v now r) f = v := by
  cases f <;> rfl

theorem pairwise_not_and_of_unique (t : List JobRow) (hu : uniqueJobIds t)
    (q : JobRow → Bool) (jobID : Nat) (hq : ∀ x, q x = true → x.jobId = jobID) :
    t.Pairwise (fun a b => ¬(q a = true ∧ q b = true)) :=
  hu.imp (fun hab hand => hab ((hq _ hand.1).trans (hq _ hand.2).symm))

theorem setJobField_self (r : JobRow) (f : JobField) :
    setJobField r f (getJobField r f) = r := by
  cases f <;> rfl

/-- C4 counterexample: the same-second no-op CAS.  With the stored
`engWorkerState` equal to `cur`, `new = cur`, and `UTC_TIMESTAMP()` equal
to the stored `_eng_last_update_time` (DATETIME has one-second
granularity), the SET clause changes nothing, the driver's changed-rows
count is 0, and `jobSetFieldIfEqual` returns `false` even though the
stored field equals `cur` — refuting "returns true iff stored f = cur". -/
theorem C4_jobSetFieldIfEqual_counterexample :
    getJobField { demoJob 1 Status.running with engWorkerState := Value.vStr "A", engLastUpdateTime := 5 }
      JobField.engWorkerState = Value.vStr "A"
    ∧ (jobSetFieldIfEqual
        [{ demoJob 1 Status.running with engWorkerState := Value.vStr "A", engLastUpdateTime := 5 }]
        1 JobField.engWorkerState (Value.vStr "A") (Value.vStr "A") 5).2 = false := by
  decide

/-- C4 amended: `jobSetFieldIfEqual` returns `true` iff the stored value of
the field equals `cur` AND the SET clause actually changes the row (`new`
differs from `cur`, or the refreshed `_eng_last_update_time` differs from
the stored timestamp); whenever it returns `true` a subsequent read of the
field observes `new`, and whenever it returns `false` the table is
unchanged. -/
theorem C4_jobSetFieldIfEqual_amended (t : List JobRow) (jobID now : Nat)
    (f : JobField) (new cur : Value) (r : JobRow)
    (hu : uniqueJobIds t) (hr : findJobRow t jobID = some r) :
    ((jobSetFieldIfEqual t jobID f new cur now).2 = true ↔
      (getJobField r f = cur ∧ (new ≠ cur ∨ now ≠ r.engLastUpdateTime)))
    ∧ ((jobSetFieldIfEqual t jobID f new cur now).2 = true →
        (findJobRow (jobSetFieldIfEqual t jobID f new cur now).1 jobID).map
          (fun x => getJobField x f) = some new)
    ∧ ((jobSetFieldIfEqual t jobID f new cur now).2 = false →
        (jobSetFieldIfEqual t jobID f new cur now).1 = t) := by
  have hrid : r.jobId = jobID := by
    have := List.find?_some hr
    simpa [jobIdMatch] using this
  have hmem : r ∈ t := List.mem_of_find?_eq_some hr
  have hqid : ∀ x : JobRow, casWhere jobID f cur x = true → x.jobId = jobID := by
    intro x hx
    simp only [casWhere, Bool.and_eq_true, decide_eq_true_eq] at hx
    exact hx.1
  by_cases hcur : getJobField r f = cur
  · by_cases hch : casSet f new now r = r
    · -- matched but unchanged (same-second no-op): zero changed rows, false
      have hnew : new = getJobField r f := by
        have := getJobField_casSet f new now r
        rw [hch] at this
        exact this.symm
      have hnow : now = r.engLastUpdateTime := by
        have := casSet_engLastUpdateTime f new now r
        rw [hch] at this
        exact this.symm
      have hcount : numRowsAffected t (casWhere jobID f cur) (casSet f new now) = 0 := by
        rw [numRowsAffected, List.countP_eq_zero]
        intro x hx
        by_cases hid : x.jobId = jobID
        · have hxr : x = r := eq_of_uniqueJobIds hu hx hmem (hid.trans hrid.symm)
          subst hxr
          simp [hch]
        · simp [casWhere, hid]
      have hres : (jobSetFieldIfEqual t jobID f new cur now).2 = false := by
        show decide (numRowsAffected t (casWhere jobID f cur) (casSet f new now) = 1) = false
        simp [hcount]
      have hsame : (jobSetFieldIfEqual t jobID f new cur now).1 = t := by
        show updateRows t (casWhere jobID f cur) (casSet f new now) = t
        refine updateRows_eq_self t _ _ (fun x hx hpx => ?_)
        have hxr : x = r := eq_of_uniqueJobIds hu hx hmem ((hqid x hpx).trans hrid.symm)
        rw [hxr, hch]
      refine ⟨?_, ?_, fun _ => hsame⟩
      · rw [hres]
        constructor
        · intro hfalse
          cases hfalse
        · intro hand
          exfalso
          rcases hand.2 with hne | hne
          · exact hne (hnew.trans hcur)
          · exact hne hnow
      · intro htrue
        rw [hres] at htrue
        cases htrue
    · -- matched and changed: exactly the target row counts, true
      have hdisj : new ≠ cur ∨ now ≠ r.engLastUpdateTime := by
        by_contra hcon
        push_neg at hcon
        apply hch
        have hnew : new = getJobField r f := hcon.1.trans hcur.symm
        rw [hnew, hcon.2]
        show setJobField { r with engLastUpdateTime := r.engLastUpdateTime } f
          (getJobField r f) = r
        have heta : ({ r with engLastUpdateTime := r.engLastUpdateTime } : JobRow) = r := rfl
        rw [heta, setJobField_self]
      have hqr : (casWhere jobID f cur r &&
          !(decide (casSet f new now r = r))) = true := by
        simp [casWhere, hrid, hcur, hch]
      have hcount : numRowsAffected t (casWhere jobID f cur) (casSet f new now) = 1 := by
        rw [numRowsAffected]
        refine countP_eq_one_of_pairwise_mem t _ r ?_ hmem hqr
        refine pairwise_not_and_of_unique t hu _ jobID ?_
        intro x hx
        simp only [Bool.and_eq_true] at hx
        exact hqid x hx.1
      have hres : (jobSetFieldIfEqual t jobID f new cur now).2 = true := by
        show decide (numRowsAffected t (casWhere jobID f cur) (casSet f new now) = 1) = true
        simp [hcount]
      refine ⟨⟨fun _ => ⟨hcur, hdisj⟩, fun _ => hres⟩, fun _ => ?_, ?_⟩
      · show (findJobRow (updateRows t (casWhere jobID f cur) (casSet f new now)) jobID).map
          (fun x => getJobField x f) = some new
        have hq : ∀ x : JobRow,
            jobIdMatch jobID (casSet f new now x) = jobIdMatch jobID x :=
          fun x => by simp [jobIdMatch, casSet_jobId]
        rw [findJobRow, find?_updateRows t (casWhere jobID f cur)
          (jobIdMatch jobID) (casSet f new now) hq]
        rw [findJobRow] at hr
        rw [hr]
        show some (getJobField (if casWhere jobID f cur r then casSet f new now r else r) f) = _
        rw [if_pos (by simp [casWhere, hrid, hcur]), getJobField_casSet]
      · intro hfalse
        rw [hres] at hfalse
        cases hfalse
  · -- stored value differs from cur: no row matched, false, table unchanged
    have hpred : ∀ x ∈ t, casWhere jobID f cur x = false := by
      intro x hx
      by_cases hid : x.jobId = jobID
      · have hxr : x = r := eq_of_uniqueJobIds hu hx hmem (hid.trans hrid.symm)
        subst hxr
        simp [casWhere, hcur]
      · simp [casWhere, hid]
    have hcount : numRowsAffected t (casWhere jobID f cur) (casSet f new now) = 0 := by
      rw [numRowsAffected, List.countP_eq_zero]
      intro x hx
      simp [hpred x hx]
    have hres : (jobSetFieldIfEqual t jobID f new cur now).2 = false := by
      show decide (numRowsAffected t (casWhere jobID f cur) (casSet f new now) = 1) = false
      simp [hcount]
    have hsame : (jobSetFieldIfEqual t jobID f new cur now).1 = t := by
      show updateRows t (casWhere jobID f cur) (casSet f new now) = t
      exact updateRows_eq_self t _ _ (fun x hx hpx => absurd hpx (by simp [hpred x hx]))
    refine ⟨?_, ?_, fun _ => hsame⟩
    · rw [hres]
      constructor
      · intro hfalse
        cases hfalse
      · intro hand
        exact absurd hand.1 hcur
    · intro htrue
      rw [hres] at htrue
      cases htrue

/-- C4 amended witness: a CAS from NULL to "A" on `engWorkerState` succeeds
on a fresh job (the field value actually changes). -/
theorem C4_jobSetFieldIfEqual_amended_witness :
    (jobSetFieldIfEqual [demoJob 1 Status.notStarted] 1 JobField.engWorkerState
      (Value.vStr "A") Value.vNull 3).2 = true :=
  (C4_jobSetFieldIfEqual_amended [demoJob 1 Status.notStarted] 1 3
    JobField.engWorkerState (Value.vStr "A") Value.vNull
    (demoJob 1 Status.notStarted) (by simp [uniqueJobIds])
    (by decide)).1.mpr ⟨by decide, Or.inl (by decide)⟩

/-- C10: `jobCancel` delegates to `jobSetFields` with the default
`ignoreUnchanged=False`, so it raises `RuntimeError` when the job does not
exist or when `cancel` is already true (zero changed rows), and succeeds
silently exactly when it flips `cancel` from false to true. -/
theorem C10_jobCancel_spec (t : List JobRow) (connId jobID : Nat)
    (hu : uniqueJobIds t) :
    ((∀ x ∈ t, x.jobId ≠ jobID) →
      jobCancel t connId jobID = (t, Except.error DBError.runtimeError))
    ∧ (∀ r, findJobRow t jobID = some r → r.cancel = Value.vBool true →
      jobCancel t connId jobID = (t, Except.error DBError.runtimeError))
    ∧ (∀ r, findJobRow t jobID = some r → r.cancel = Value.vBool false →
      (jobCancel t connId jobID).2 = Except.ok ()
      ∧ (findJobRow (jobCancel t connId jobID).1 jobID).map JobRow.cancel =
          some (Value.vBool true)) := by
  have hsetcancel : ∀ x : JobRow,
      setFieldsSet [(JobField.cancel, Value.vBool true)] x =
        { x with cancel := Value.vBool true } := fun x => rfl
  have hpredid : ∀ x : JobRow,
      setFieldsWhere connId jobID false x = decide (x.jobId = jobID) := by
    intro x
    simp [setFieldsWhere]
  refine ⟨fun hnone => ?_, fun r hr hc => ?_, fun r hr hc => ?_⟩
  · -- no such job: zero rows matched, RuntimeError
    have hcount : numRowsAffected t (setFieldsWhere connId jobID false)
        (setFieldsSet [(JobField.cancel, Value.vBool true)]) = 0 := by
      rw [numRowsAffected, List.countP_eq_zero]
      intro x hx
      simp [hpredid x, hnone x hx]
    have hsame : updateRows t (setFieldsWhere connId jobID false)
        (setFieldsSet [(JobField.cancel, Value.vBool true)]) = t := by
      refine updateRows_eq_self t _ _ (fun x hx hpx => ?_)
      rw [hpredid x] at hpx
      exact absurd (of_decide_eq_true hpx) (hnone x hx)
    show (updateRows t _ _,
      if numRowsAffected t _ _ ≠ 1 ∧ ¬false then Except.error DBError.runtimeError
      else Except.ok ()) = _
    rw [hsame, hcount, if_pos (by simp)]
  · -- cancel already true: the SET changes nothing, RuntimeError
    have hrid : r.jobId = jobID := by
      have := List.find?_some hr
      simpa [jobIdMatch] using this
    have hmem : r ∈ t := List.mem_of_find?_eq_some hr
    have hfix : ∀ x ∈ t, setFieldsWhere connId jobID false x = true →
        setFieldsSet [(JobField.cancel, Value.vBool true)] x = x := by
      intro x hx hpx
      rw [hpredid x] at hpx
      have hxr : x = r :=
        eq_of_uniqueJobIds hu hx hmem ((of_decide_eq_true hpx).trans hrid.symm)
      subst hxr
      rw [hsetcancel x, ← hc]
    have hcount : numRowsAffected t (setFieldsWhere connId jobID false)
        (setFieldsSet [(JobField.cancel, Value.vBool true)]) = 0 := by
      rw [numRowsAffected, List.countP_eq_zero]
      intro x hx
      by_cases hpx : setFieldsWhere connId jobID false x = true
      · simp [hpx, hfix x hx hpx]
      · simp [Bool.eq_false_iff.mpr hpx]
    have hsame : updateRows t (setFieldsWhere connId jobID false)
        (setFieldsSet [(JobField.cancel, Value.vBool true)]) = t :=
      updateRows_eq_self t _ _ hfix
    show (updateRows t _ _,
      if numRowsAffected t _ _ ≠ 1 ∧ ¬false then Except.error DBError.runtimeError
      else Except.ok ()) = _
    rw [hsame, hcount, if_pos (by simp)]
  · -- cancel false: exactly one changed row, silent success
    have hrid : r.jobId = jobID := by
      have := List.find?_some hr
      simpa [jobIdMatch] using this
    have hmem : r ∈ t := List.mem_of_find?_eq_some hr
    have hchanged : setFieldsSet [(JobField.cancel, Value.vBool true)] r ≠ r := by
      rw [hsetcancel r]
      intro heq
      have : Value.vBool true = r.cancel := congrArg JobRow.cancel heq
      rw [hc] at this
      cases this
    have hqr : (setFieldsWhere connId jobID false r &&
        !(decide (setFieldsSet [(JobField.cancel, Value.vBool true)] r = r))) = true := by
      simp [hpredid r, hrid, hchanged]
    have hcount : numRowsAffected t (setFieldsWhere connId jobID false)
        (setFieldsSet [(JobField.cancel, Value.vBool true)]) = 1 := by
      rw [numRowsAffected]
      refine countP_eq_one_of_pairwise_mem t _ r ?_ hmem hqr
      refine pairwise_not_and_of_unique t hu _ jobID ?_
      intro x hx
      simp only [Bool.and_eq_true] at hx
      have := hx.1
      rw [hpredid x] at this
      exact of_decide_eq_true this
    constructor
    · show (if numRowsAffected t (setFieldsWhere connId jobID false)
          (setFieldsSet [(JobField.cancel, Value.vBool true)]) ≠ 1 ∧ ¬false
        then Except.error DBError.runtimeError else Except.ok ()) = Except.ok ()
      rw [hcount, if_neg (by simp)]
    · have hq : ∀ x : JobRow,
          jobIdMatch jobID (setFieldsSet [(JobField.cancel, Value.vBool true)] x) =
            jobIdMatch jobID x :=
        fun x => by simp [jobIdMatch, setFieldsSet_jobId]
      show (findJobRow (updateRows t (setFieldsWhere connId jobID false)
          (setFieldsSet [(JobField.cancel, Value.vBool true)])) jobID).map
        JobRow.cancel = some (Value.vBool true)
      rw [findJobRow, find?_updateRows t (setFieldsWhere connId jobID false)
        (jobIdMatch jobID) (setFieldsSet [(JobField.cancel, Value.vBool true)]) hq]
      rw [findJobRow] at hr
      rw [hr]
      show some (JobRow.cancel (if setFieldsWhere connId jobID false r then
        setFieldsSet [(JobField.cancel, Value.vBool true)] r else r)) = _
      rw [if_pos (by simp [hpredid r, hrid])]
      rfl

/-- C10 witness: cancelling a running job with `cancel = false` succeeds;
cancelling it again raises `RuntimeError`. -/
theorem C10_jobCancel_spec_witness :
    (jobCancel [demoJob 1 Status.running] 7 1).2 = Except.ok () :=
  ((C10_jobCancel_spec [demoJob 1 Status.running] 7 1
    (by simp [uniqueJobIds])).2.2 (demoJob 1 Status.running)
    (by decide) (by decide)).1

/-! ## Models table -/

/-- One row of the `models` table.  Columns written only through
`modelSetFields`'s generic field dictionary are `Value` cells;
`optimized_metric` is an SQL FLOAT (`Option Flt`, NULL by default);
`_eng_worker_conn_id` is `INT DEFAULT 0`. -/
structure ModelRow where
  modelId : Nat
  jobId : Nat
  params : String
  status : Status
  completionReason : Value
  completionMsg : Value
  results : Value
  optimizedMetric : Option Flt
  updateCounter : Nat
  numRecords : Value
  startTime : Nat
  endTime : Nat
  cpuTime : Flt
  modelCheckpointId : Value
  engParamsHash : Bytes
  engParticleHash : Bytes
  engLastUpdateTime : Nat
  engWorkerConnId : Nat
  engStop : Value
  engMatured : Value
deriving DecidableEq, Repr

/-- The models-table columns addressable through `modelSetFields`'s
public-name field dictionary in the claims under study (`update_counter` is
appended by the statement itself and is never passed as a key). -/
inductive ModelField where
  | results
  | numRecords
  | modelCheckpointId
  | engStop
  | engMatured
deriving DecidableEq, Repr

/-- Read one dynamically-typed column of a model row. -/
def getModelField (r : ModelRow) : ModelField → Value
  | .results => r.results
  | .numRecords => r.numRecords
  | .modelCheckpointId => r.modelCheckpointId
  | .engStop => r.engStop
  | .engMatured => r.engMatured

/-- Write one dynamically-typed column of a model row. -/
def setModelField (r : ModelRow) : ModelField → Value → ModelRow
  | .results, v => { r with results := v }
  | .numRecords, v => { r with numRecords := v }
  | .modelCheckpointId, v => { r with modelCheckpointId := v }
  | .engStop, v => { r with engStop := v }
  | .engMatured, v => { r with engMatured := v }

/-- WHERE `model_id=%s` match. -/
def modelIdMatch (modelID : Nat) (r : ModelRow) : Bool :=
  decide (r.modelId = modelID)

/-- Models-table rows are pairwise distinct in `model_id` (PRIMARY KEY). -/
def uniqueModelIds (t : List ModelRow) : Prop :=
  t.Pairwise (fun a b => a.modelId ≠ b.modelId)

/-- First row with the given `model_id`. -/
def findModelRow (t : List ModelRow) (modelID : Nat) : Option ModelRow :=
  t.find? (modelIdMatch modelID)

/-- SET clause of `modelSetFields`: the caller's field dictionary followed
by `update_counter = update_counter+1`. -/
def modelSetFieldsSet (fields : List (ModelField × Value)) (r : ModelRow) : ModelRow :=
  let r1 := fields.foldl (fun acc fv => setModelField acc fv.1 fv.2) r
  { r1 with updateCounter := r1.updateCounter + 1 }

/-- Translation of `ClientJobsDAO.modelSetFields`: `UPDATE models SET
<fields>, update_counter=update_counter+1 WHERE model_id=%s`; NOT
ownership-gated; `RuntimeError` when zero rows changed unless
`ignoreUnchanged`. -/
def modelSetFields (t : List ModelRow) (modelID : Nat)
    (fields : List (ModelField × Value)) (ignoreUnchanged : Bool) :
    List ModelRow × Except DBError Unit :=
  let n := numRowsAffected t (modelIdMatch modelID) (modelSetFieldsSet fields)
  (updateRows t (modelIdMatch modelID) (modelSetFieldsSet fields),
   if n ≠ 1 ∧ ¬ignoreUnchanged then .error .runtimeError else .ok ())

/-- SET clause of `modelUpdateResults`: refresh `_eng_last_update_time`,
increment `update_counter`, then conditionally `results`, `num_records`,
and — only when the metric passes the `metricValue==metricValue` NaN test —
`optimized_metric`. -/
def updateResultsSet (results : Option String) (metricValue : Option Flt)
    (numRecords : Option Nat) (now : Nat) (r : ModelRow) : ModelRow :=
  let r1 := { r with engLastUpdateTime := now, updateCounter := r.updateCounter + 1 }
  let r2 := match results with
    | some s => { r1 with results := Value.vStr s }
    | none => r1
  let r3 := match numRecords with
    | some n => { r2 with numRecords := Value.vNat n }
    | none => r2
  match metricValue with
  | some m => if Flt.feq m m then { r3 with optimizedMetric := some m } else r3
  | none => r3

/-- WHERE clause of `modelUpdateResults`: `model_id=%s AND
_eng_worker_conn_id=%s` (the ownership gate). -/
def updateResultsWhere (connId modelID : Nat) (r : ModelRow) : Bool :=
  decide (r.modelId = modelID) && decide (r.engWorkerConnId = connId)

/-- Translation of `ClientJobsDAO.modelUpdateResults`:
`InvalidConnectionException` when the ownership-gated update does not
affect exactly one row. -/
def modelUpdateResults (t : List ModelRow) (connId modelID : Nat)
    (results : Option String) (metricValue : Option Flt)
    (numRecords : Option Nat) (now : Nat) : List ModelRow × Except DBError Unit :=
  let n := numRowsAffected t (updateResultsWhere connId modelID)
    (updateResultsSet results metricValue numRecords now)
  (updateRows t (updateResultsWhere connId modelID)
    (updateResultsSet results metricValue numRecords now),
   if n = 1 then .ok () else .error .invalidConnectionException)

/-- Translation of `ClientJobsDAO.modelUpdateTimestamp`: the zero-change
form of `modelUpdateResults`. -/
def modelUpdateTimestamp (t : List ModelRow) (connId modelID now : Nat) :
    List ModelRow × Except DBError Unit :=
  modelUpdateResults t connId modelID none none none now

/-- SET clause of `modelSetCompleted` (a `None` completion message is
replaced by the empty string before the update). -/
def setCompletedSet (completionReason : String) (completionMsg : Option String)
    (cpuTime : Flt) (now : Nat) (r : ModelRow) : ModelRow :=
  { r with
    status := Status.completed
    completionReason := Value.vStr completionReason
    completionMsg := Value.vStr (completionMsg.getD "")
    endTime := now
    cpuTime := cpuTime
    engLastUpdateTime := now
    updateCounter := r.updateCounter + 1 }

/-- WHERE clause of `modelSetCompleted`: `model_id=%s [AND
_eng_worker_conn_id=%s]`. -/
def setCompletedWhere (connId modelID : Nat) (useConnectionID : Bool)
    (r : ModelRow) : Bool :=
  decide (r.modelId = modelID) &&
    (!useConnectionID || decide (r.engWorkerConnId = connId))

/-- Translation of `ClientJobsDAO.modelSetCompleted`. -/
def modelSetCompleted (t : List ModelRow) (connId modelID : Nat)
    (completionReason : String) (completionMsg : Option String) (cpuTime : Flt)
    (useConnectionID : Bool) (now : Nat) : List ModelRow × Except DBError Unit :=
  let n := numRowsAffected t (setCompletedWhere connId modelID useConnectionID)
    (setCompletedSet completionReason completionMsg cpuTime now)
  (updateRows t (setCompletedWhere connId modelID useConnectionID)
    (setCompletedSet completionReason completionMsg cpuTime now),
   if n = 1 then .ok () else .error .invalidConnectionException)

/-- Orphan-candidate WHERE clause (`findCandidateModelWithRetries`):
`status=running AND job_id=%s AND TIMESTAMPDIFF(SECOND,
_eng_last_update_time, now) > maxUpdateInterval`. -/
def orphanWhere (jobId maxUpdateInterval now : Nat) (r : ModelRow) : Bool :=
  decide (r.status = Status.running) && decide (r.jobId = jobId) &&
    decide (maxUpdateInterval < now - r.engLastUpdateTime)

/-- The candidate search of `modelAdoptNextOrphan` (`LIMIT 1`). -/
def findCandidateModel (t : List ModelRow) (jobId maxUpdateInterval now : Nat) :
    Option Nat :=
  (t.find? (orphanWhere jobId maxUpdateInterval now)).map (fun r => r.modelId)

/-- SET clause of `adoptModelWithRetries`: `_eng_worker_conn_id=connId,
_eng_last_update_time=now`. -/
def adoptSet (connId now : Nat) (r : ModelRow) : ModelRow :=
  { r with engWorkerConnId := connId, engLastUpdateTime := now }

/-- WHERE clause of `adoptModelWithRetries`: `model_id=%s AND
status=running AND <liveness staleness>`. -/
def adoptWhere (modelID maxUpdateInterval now : Nat) (r : ModelRow) : Bool :=
  decide (r.modelId = modelID) && decide (r.status = Status.running) &&
    decide (maxUpdateInterval < now - r.engLastUpdateTime)

/-- Translation of `adoptModelWithRetries`: try the predicated adoption
update; on zero affected rows, re-read the row's `(status,
_eng_worker_conn_id)` to discern a transient retry (we already own it) from
losing the race. -/
def adoptModelWithRetries (t : List ModelRow) (connId modelID maxUpdateInterval now : Nat) :
    List ModelRow × Bool :=
  let t2 := updateRows t (adoptWhere modelID maxUpdateInterval now) (adoptSet connId now)
  let n := numRowsAffected t (adoptWhere modelID maxUpdateInterval now) (adoptSet connId now)
  if n = 1 then (t2, true)
  else
    match t2.find? (modelIdMatch modelID) with
    | some r => (t2, decide (r.status = Status.running) && decide (r.engWorkerConnId = connId))
    | none => (t2, false)

/-- Translation of `ClientJobsDAO.modelAdoptNextOrphan`.  The source loops
`findCandidate`/`tryAdopt`; in the sequential semantics of this embedding a
found candidate always satisfies the adoption predicate in the same state,
so the loop body runs exactly once. -/
def modelAdoptNextOrphan (t : List ModelRow) (connId jobId maxUpdateInterval now : Nat) :
    List ModelRow × Option Nat :=
  match findCandidateModel t jobId maxUpdateInterval now with
  | none => (t, none)
  | some modelID =>
    let p := adoptModelWithRetries t connId modelID maxUpdateInterval now
    (p.1, if p.2 then some modelID else none)

/-- The models table together with its `AUTO_INCREMENT` counter. -/
structure ModelsDB where
  rows : List ModelRow
  nextModelId : Nat
deriving DecidableEq, Repr

/-- The row inserted by `modelInsertAndStart`: `status=running`, both
hashes stored, timestamps stamped, `_eng_worker_conn_id=connId`, remaining
columns at their DDL defaults. -/
def newModelRow (modelId jobID : Nat) (params : String) (pHash ptHash : Bytes)
    (connId now : Nat) : ModelRow :=
  { modelId := modelId, jobId := jobID, params := params,
    status := Status.running, completionReason := Value.vNull,
    completionMsg := Value.vNull, results := Value.vNull,
    optimizedMetric := none, updateCounter := 0, numRecords := Value.vNat 0,
    startTime := now, endTime := 0, cpuTime := Flt.num 0,
    modelCheckpointId := Value.vNull, engParamsHash := pHash,
    engParticleHash := ptHash, engLastUpdateTime := now,
    engWorkerConnId := connId, engStop := Value.vNull,
    engMatured := Value.vBool false }

/-- The exact-match lookup of `modelInsertAndStart`
(`findExactMatchNoRetries`): first row with `job_id=jobID AND
_eng_params_hash=pHash AND _eng_particle_hash=ptHash`. -/
def findExactModelMatch (rows : List ModelRow) (jobID : Nat) (pHash ptHash : Bytes) :
    Option ModelRow :=
  rows.find? (fun r => decide (r.jobId = jobID) &&
    decide (r.engParamsHash = pHash) && decide (r.engParticleHash = ptHash))

/-- A row violating one of the two unique indices `(job_id,
_eng_params_hash)` / `(job_id, _eng_particle_hash)` against the attempted
insert — the condition under which the INSERT raises `Duplicate entry`. -/
def hashCollision (jobID : Nat) (pHash ptHash : Bytes) (r : ModelRow) : Bool :=
  decide (r.jobId = jobID) &&
    (decide (r.engParamsHash = pHash) || decide (r.engParticleHash = ptHash))

/-- Translation of `ClientJobsDAO.modelInsertAndStart`, sequential
execution (no concurrent writer between its statements): normalize both
hashes (`particleHash` defaults to `paramsHash`); pre-check for an exact
`(jobId, paramsHash, particleHash)` row and return `(modelId, False)` if
found; otherwise INSERT — on a `Duplicate entry` error, reconcile by
re-reading the exact row (returning whether its `_eng_worker_conn_id` is
ours) and falling back to the `paramsHash OR particleHash` `LIMIT 1`
lookup, which returns `(modelId, False)`. -/
def modelInsertAndStart (db : ModelsDB) (connId jobID : Nat) (params : String)
    (paramsHash : Bytes) (particleHash : Option Bytes) (now : Nat) :
    Except DBError (ModelsDB × Nat × Bool) :=
  let particleHash0 := particleHash.getD paramsHash
  match normalizeHash paramsHash, normalizeHash particleHash0 with
  | some pHash, some ptHash =>
    match findExactModelMatch db.rows jobID pHash ptHash with
    | some r => .ok (db, r.modelId, false)
    | none =>
      if db.rows.any (hashCollision jobID pHash ptHash) then
        match findExactModelMatch db.rows jobID pHash ptHash with
        | some r => .ok (db, r.modelId, decide (r.engWorkerConnId = connId))
        | none =>
          match db.rows.find? (hashCollision jobID pHash ptHash) with
          | some r => .ok (db, r.modelId, false)
          | none => .error .assertionError
      else
        .ok ({ rows := db.rows ++ [newModelRow db.nextModelId jobID params pHash ptHash connId now],
               nextModelId := db.nextModelId + 1 },
             db.nextModelId, true)
  | _, _ => .error .assertionError

theorem eq_of_uniqueModelIds {t : List ModelRow} {a b : ModelRow}
    (h : t.Pairwise (fun a b => a.modelId ≠ b.modelId)) (ha : a ∈ t) (hb : b ∈ t)
    (hid : a.modelId = b.modelId) : a = b := by
  by_contra hne
  exact h.forall (fun _ _ hxy => Ne.symm hxy) ha hb hne hid

theorem pairwise_not_and_of_uniqueModels (t : List ModelRow)
    (hu : uniqueModelIds t) (q : ModelRow → Bool) (modelID : Nat)
    (hq : ∀ x, q x = true → x.modelId = modelID) :
    t.Pairwise (fun a b => ¬(q a = true ∧ q b = true)) :=
  hu.imp (fun hab hand => hab ((hq _ hand.1).trans (hq _ hand.2).symm))

theorem setModelField_modelId (r : ModelRow) (f : ModelField) (v : Value) :
    (setModelField r f v).modelId = r.modelId := by
  cases f <;> rfl

theorem setModelField_updateCounter (r : ModelRow) (f : ModelField) (v : Value) :
    (setModelField r f v).updateCounter = r.updateCounter := by
  cases f <;> rfl

theorem modelSetFieldsSet_modelId (fields : List (ModelField × Value)) (r : ModelRow) :
    (modelSetFieldsSet fields r).modelId = r.modelId := by
  show (fields.foldl (fun acc fv => setModelField acc fv.1 fv.2) r).modelId = r.modelId
  induction fields generalizing r with
  | nil => rfl
  | cons fv rest ih =>
    show (rest.foldl _ (setModelField r fv.1 fv.2)).modelId = r.modelId
    rw [ih, setModelField_modelId]

theorem modelSetFieldsSet_updateCounter (fields : List (ModelField × Value)) (r : ModelRow) :
    (modelSetFieldsSet fields r).updateCounter = r.updateCounter + 1 := by
  show (fields.foldl (fun acc fv => setModelField acc fv.1 fv.2) r).updateCounter + 1 =
    r.updateCounter + 1
  congr 1
  induction fields generalizing r with
  | nil => rfl
  | cons fv rest ih =>
    show (rest.foldl _ (setModelField r fv.1 fv.2)).updateCounter = r.updateCounter
    rw [ih, setModelField_updateCounter]

theorem updateResultsSet_modelId (res : Option String) (mv : Option Flt)
    (nr : Option Nat) (now : Nat) (r : ModelRow) :
    (updateResultsSet res mv nr now r).modelId = r.modelId := by
  unfold updateResultsSet
  cases res <;> cases nr <;> cases mv <;>
    first
      | rfl
      | (rename_i m; by_cases h : Flt.feq m m <;> simp [h])

theorem updateResultsSet_updateCounter (res : Option String) (mv : Option Flt)
    (nr : Option Nat) (now : Nat) (r : ModelRow) :
    (updateResultsSet res mv nr now r).updateCounter = r.updateCounter + 1 := by
  unfold updateResultsSet
  cases res <;> cases nr <;> cases mv <;>
    first
      | rfl
      | (rename_i m; by_cases h : Flt.feq m m <;> simp [h])

theorem updateResultsSet_engLastUpdateTime (res : Option String) (mv : Option Flt)
    (nr : Option Nat) (now : Nat) (r : ModelRow) :
    (updateResultsSet res mv nr now r).engLastUpdateTime = now := by
  unfold updateResultsSet
  cases res <;> cases nr <;> cases mv <;>
    first
      | rfl
      | (rename_i m; by_cases h : Flt.feq m m <;> simp [h])

theorem updateResultsSet_nan (res : Option String) (nr : Option Nat) (now : Nat)
    (r : ModelRow) :
    (updateResultsSet res (some Flt.nan) nr now r).optimizedMetric =
      r.optimizedMetric := by
  unfold updateResultsSet
  cases res <;> cases nr <;> simp [Flt.feq]

theorem updateResultsSet_results (s : String) (mv : Option Flt) (nr : Option Nat)
    (now : Nat) (r : ModelRow) :
    (updateResultsSet (some s) mv nr now r).results = Value.vStr s := by
  unfold updateResultsSet
  cases nr <;> cases mv <;>
    first
      | rfl
      | (rename_i m; by_cases h : Flt.feq m m <;> simp [h])

theorem updateResultsSet_numRecords (res : Option String) (mv : Option Flt)
    (n : Nat) (now : Nat) (r : ModelRow) :
    (updateResultsSet res mv (some n) now r).numRecords = Value.vNat n := by
  unfold updateResultsSet
  cases res <;> cases mv <;>
    first
      | rfl
      | (rename_i m; by_cases h : Flt.feq m m <;> simp [h])

theorem setCompletedSet_modelId (reason : String) (msg : Option String)
    (cpuTime : Flt) (now : Nat) (r : ModelRow) :
    (setCompletedSet reason msg cpuTime now r).modelId = r.modelId := rfl

theorem setCompletedSet_updateCounter (reason : String) (msg : Option String)
    (cpuTime : Flt) (now : Nat) (r : ModelRow) :
    (setCompletedSet reason msg cpuTime now r).updateCounter = r.updateCounter + 1 := rfl

theorem adoptSet_modelId (connId now : Nat) (r : ModelRow) :
    (adoptSet connId now r).modelId = r.modelId := rfl

theorem adoptSet_updateCounter (connId now : Nat) (r : ModelRow) :
    (adoptSet connId now r).updateCounter = r.updateCounter := rfl

/-- C5: `modelUpdateResults` from a session that does not own the model
affects zero rows, raises `InvalidConnectionException`, and leaves the
table unchanged; the owner's call succeeds, increments `updateCounter`,
refreshes `engLastUpdateTime`, drops a NaN `metricValue`, and still writes
the other supplied fields. -/
theorem C5_modelUpdateResults_spec (t : List ModelRow) (connId modelID now : Nat)
    (results : Option String) (metricValue : Option Flt) (numRecords : Option Nat)
    (r : ModelRow) (hu : uniqueModelIds t) (hr : findModelRow t modelID = some r) :
    (r.engWorkerConnId ≠ connId →
      modelUpdateResults t connId modelID results metricValue numRecords now =
        (t, Except.error DBError.invalidConnectionException))
    ∧ (r.engWorkerConnId = connId →
      (modelUpdateResults t connId modelID results metricValue numRecords now).2 =
          Except.ok ()
        ∧ findModelRow
            (modelUpdateResults t connId modelID results metricValue numRecords now).1
            modelID = some (updateResultsSet results metricValue numRecords now r)
        ∧ (updateResultsSet results metricValue numRecords now r).updateCounter =
            r.updateCounter + 1
        ∧ (updateResultsSet results metricValue numRecords now r).engLastUpdateTime = now
        ∧ (metricValue = some Flt.nan →
            (updateResultsSet results metricValue numRecords now r).optimizedMetric =
              r.optimizedMetric)
        ∧ (∀ s, results = some s →
            (updateResultsSet results metricValue numRecords now r).results =
              Value.vStr s)
        ∧ (∀ n, numRecords = some n →
            (updateResultsSet results metricValue numRecords now r).numRecords =
              Value.vNat n)) := by
  have hrid : r.modelId = modelID := by
    have := List.find?_some hr
    simpa [modelIdMatch] using this
  have hmem : r ∈ t := List.mem_of_find?_eq_some hr
  constructor
  · -- stray session: the ownership predicate matches no row
    intro hown
    have hpred : ∀ x ∈ t, updateResultsWhere connId modelID x = false := by
      intro x hx
      by_cases hid : x.modelId = modelID
      · have hxr : x = r := eq_of_uniqueModelIds hu hx hmem (hid.trans hrid.symm)
        subst hxr
        simp [updateResultsWhere, fun h => hown h]
      · simp [updateResultsWhere, hid]
    have hcount : numRowsAffected t (updateResultsWhere connId modelID)
        (updateResultsSet results metricValue numRecords now) = 0 := by
      rw [numRowsAffected, List.countP_eq_zero]
      intro x hx
      simp [hpred x hx]
    have hsame : updateRows t (updateResultsWhere connId modelID)
        (updateResultsSet results metricValue numRecords now) = t :=
      updateRows_eq_self t _ _ (fun x hx hpx => absurd hpx (by simp [hpred x hx]))
    show (updateRows t _ _, if numRowsAffected t _ _ = 1 then Except.ok ()
      else Except.error DBError.invalidConnectionException) = _
    rw [hsame, hcount, if_neg (by simp)]
  · -- owner: exactly one changed row
    intro hown
    have hchanged : updateResultsSet results metricValue numRecords now r ≠ r := by
      intro heq
      have := updateResultsSet_updateCounter results metricValue numRecords now r
      rw [heq] at this
      omega
    have hqr : (updateResultsWhere connId modelID r &&
        !(decide (updateResultsSet results metricValue numRecords now r = r))) = true := by
      simp [updateResultsWhere, hrid, hown, hchanged]
    have hcount : numRowsAffected t (updateResultsWhere connId modelID)
        (updateResultsSet results metricValue numRecords now) = 1 := by
      rw [numRowsAffected]
      refine countP_eq_one_of_pairwise_mem t _ r ?_ hmem hqr
      refine pairwise_not_and_of_uniqueModels t hu _ modelID ?_
      intro x hx
      simp only [Bool.and_eq_true] at hx
      have := hx.1
      simp only [updateResultsWhere, Bool.and_eq_true, decide_eq_true_eq] at this
      exact this.1
    refine ⟨?_, ?_, updateResultsSet_updateCounter _ _ _ _ _,
      updateResultsSet_engLastUpdateTime _ _ _ _ _,
      fun hnan => by rw [hnan]; exact updateResultsSet_nan _ _ _ _,
      fun s hs => by rw [hs]; exact updateResultsSet_results _ _ _ _ _,
      fun n hn => by rw [hn]; exact updateResultsSet_numRecords _ _ _ _ _⟩
    · show (if numRowsAffected t (updateResultsWhere connId modelID)
          (updateResultsSet results metricValue numRecords now) = 1 then Except.ok ()
        else Except.error DBError.invalidConnectionException) = Except.ok ()
      rw [hcount, if_pos rfl]
    · have hq : ∀ x : ModelRow,
          modelIdMatch modelID (updateResultsSet results metricValue numRecords now x) =
            modelIdMatch modelID x :=
        fun x => by simp [modelIdMatch, updateResultsSet_modelId]
      show (findModelRow (updateRows t (updateResultsWhere connId modelID)
        (updateResultsSet results metricValue numRecords now)) modelID) = _
      rw [findModelRow, find?_updateRows t (updateResultsWhere connId modelID)
        (modelIdMatch modelID) (updateResultsSet results metricValue numRecords now) hq]
      rw [findModelRow] at hr
      rw [hr]
      show some (if updateResultsWhere connId modelID r then
        updateResultsSet results metricValue numRecords now r else r) = _
      rw [if_pos (by simp [updateResultsWhere, hrid, hown])]

/-- A concrete model row used in witnesses and counterexamples. -/
def demoModel (modelId jobId connId now : Nat) : ModelRow :=
  newModelRow modelId jobId "p" ('a' :: List.replicate 15 '\x00')
    ('a' :: List.replicate 15 '\x00') connId now

/-- C5 witness: a stray session (connId 8) is rejected; the owner (connId 7)
updates results while a NaN metric is dropped. -/
theorem C5_modelUpdateResults_spec_witness :
    modelUpdateResults [demoModel 1000 1 7 1] 8 1000 (some "x")
        (some Flt.nan) (some 3) 9 =
      ([demoModel 1000 1 7 1], Except.error DBError.invalidConnectionException)
    ∧ (modelUpdateResults [demoModel 1000 1 7 1] 7 1000 (some "x")
        (some Flt.nan) (some 3) 9).2 = Except.ok ()
    ∧ (updateResultsSet (some "x") (some Flt.nan) (some 3) 9
        (demoModel 1000 1 7 1)).optimizedMetric = (demoModel 1000 1 7 1).optimizedMetric := by
  refine ⟨?_, ?_, ?_⟩
  · exact (C5_modelUpdateResults_spec [demoModel 1000 1 7 1] 8 1000 9 (some "x")
      (some Flt.nan) (some 3) (demoModel 1000 1 7 1)
      (by simp [uniqueModelIds]) (by decide)).1 (by decide)
  · exact ((C5_modelUpdateResults_spec [demoModel 1000 1 7 1] 7 1000 9 (some "x")
      (some Flt.nan) (some 3) (demoModel 1000 1 7 1)
      (by simp [uniqueModelIds]) (by decide)).2 (by decide)).1
  · exact ((C5_modelUpdateResults_spec [demoModel 1000 1 7 1] 7 1000 9 (some "x")
      (some Flt.nan) (some 3) (demoModel 1000 1 7 1)
      (by simp [uniqueModelIds]) (by decide)).2 (by decide)).2.2.2.2.1 rfl

/-- Models-table invariants enforced by the schema: `model_id` is the
primary key, `(job_id, _eng_params_hash)` and `(job_id,
_eng_particle_hash)` are unique indices, and the auto-increment counter is
ahead of every stored id. -/
def wfModels (db : ModelsDB) : Prop :=
  db.rows.Pairwise (fun a b => a.modelId ≠ b.modelId
    ∧ ¬(a.jobId = b.jobId ∧ a.engParamsHash = b.engParamsHash)
    ∧ ¬(a.jobId = b.jobId ∧ a.engParticleHash = b.engParticleHash))
  ∧ ∀ r ∈ db.rows, r.modelId < db.nextModelId

theorem normalizeHash_some_of_le (h : Bytes) (hle : h.length ≤ 16) :
    ∃ v, normalizeHash h = some v ∧ v.length = 16 := by
  by_cases hlt : h.length < 16
  · refine ⟨h ++ List.replicate (16 - h.length) '\x00', ?_, ?_⟩
    · simp [normalizeHash, HASH_MAX_LEN, hlt]
    · simp only [List.length_append, List.length_replicate]
      omega
  · have heq : h.length = 16 := by omega
    refine ⟨h, ?_, heq⟩
    rw [normalizeHash]
    rw [if_neg (by simp [HASH_MAX_LEN]; omega), if_pos (by simp [HASH_MAX_LEN]; omega)]

theorem modelInsertAndStart_eq (db : ModelsDB) (connId jobID : Nat)
    (params : String) (paramsHash : Bytes) (particleHash : Option Bytes)
    (now : Nat) (pH ptH : Bytes) (hnp : normalizeHash paramsHash = some pH)
    (hnpt : normalizeHash (particleHash.getD paramsHash) = some ptH) :
    modelInsertAndStart db connId jobID params paramsHash particleHash now =
      (match findExactModelMatch db.rows jobID pH ptH with
       | some r => Except.ok (db, r.modelId, false)
       | none =>
         if db.rows.any (hashCollision jobID pH ptH) then
           match findExactModelMatch db.rows jobID pH ptH with
           | some r => Except.ok (db, r.modelId, decide (r.engWorkerConnId = connId))
           | none =>
             match db.rows.find? (hashCollision jobID pH ptH) with
             | some r => Except.ok (db, r.modelId, false)
             | none => Except.error DBError.assertionError
         else
           Except.ok
             ({ rows := db.rows ++ [newModelRow db.nextModelId jobID params pH ptH connId now]
                nextModelId := db.nextModelId + 1 },
              db.nextModelId, true)) := by
  rw [modelInsertAndStart]
  rw [hnp, hnpt]

/-- C2 counterexample: the same session (connId 7) calls
`modelInsertAndStart` twice with identical arguments.  The first call
inserts and returns `ours = true`; the second call's pre-check finds the
row and returns `ours = false` even though the row's `engWorkerConnId`
equals the caller's connId — contradicting "ours is true exactly when
engWorkerConnId equals the caller's connId". -/
theorem C2_modelInsertAndStart_counterexample :
    modelInsertAndStart { rows := [], nextModelId := 1000 } 7 1 "p" ['a'] none 5 =
      Except.ok ({ rows := [demoModel 1000 1 7 5], nextModelId := 1001 }, 1000, true)
    ∧ modelInsertAndStart { rows := [demoModel 1000 1 7 5], nextModelId := 1001 }
        7 1 "p" ['a'] none 6 =
      Except.ok ({ rows := [demoModel 1000 1 7 5], nextModelId := 1001 }, 1000, false)
    ∧ (demoModel 1000 1 7 5).engWorkerConnId = 7 := by
  decide

/-- C2 amended: at-most-one row per `(jobId, engParamsHash)` and per
`(jobId, engParticleHash)` is preserved, and a call that collides with an
existing row on either hash returns that row's `modelId` with `ours =
false` and leaves the table unchanged; `ours = true` exactly when the call
itself inserted the row (a pre-existing row yields `ours = false` even
when its `engWorkerConnId` equals the caller's connId). -/
theorem C2_modelInsertAndStart_amended (db : ModelsDB) (connId jobID : Nat)
    (params : String) (paramsHash : Bytes) (particleHash : Option Bytes)
    (now : Nat) (hwf : wfModels db) (hp : paramsHash.length ≤ 16)
    (hpt : (particleHash.getD paramsHash).length ≤ 16) :
    ∃ pHash ptHash db2 mid ours,
      normalizeHash paramsHash = some pHash ∧
      normalizeHash (particleHash.getD paramsHash) = some ptHash ∧
      modelInsertAndStart db connId jobID params paramsHash particleHash now =
        Except.ok (db2, mid, ours) ∧
      wfModels db2 ∧
      (if db.rows.any (hashCollision jobID pHash ptHash) then
        ours = false ∧ db2 = db ∧
          ∃ r ∈ db.rows, r.modelId = mid ∧ hashCollision jobID pHash ptHash r = true
       else
        ours = true ∧ mid = db.nextModelId ∧
          db2.rows = db.rows ++
            [newModelRow db.nextModelId jobID params pHash ptHash connId now]) := by
  obtain ⟨pH, hnp, hplen⟩ := normalizeHash_some_of_le paramsHash hp
  obtain ⟨ptH, hnpt, hptlen⟩ := normalizeHash_some_of_le _ hpt
  have hunfold := modelInsertAndStart_eq db connId jobID params paramsHash
    particleHash now pH ptH hnp hnpt
  refine ⟨pH, ptH, ?_⟩
  cases hex : findExactModelMatch db.rows jobID pH ptH with
  | some r =>
    -- pre-check hit: the exact row collides on both hashes
    have hmem : r ∈ db.rows := List.mem_of_find?_eq_some hex
    have hprop := List.find?_some hex
    simp only [Bool.and_eq_true, decide_eq_true_eq] at hprop
    have hcoll : hashCollision jobID pH ptH r = true := by
      simp [hashCollision, hprop.1.1, hprop.1.2]
    have hany : db.rows.any (hashCollision jobID pH ptH) = true :=
      List.any_eq_true.mpr ⟨r, hmem, hcoll⟩
    refine ⟨db, r.modelId, false, hnp, hnpt, ?_, hwf, ?_⟩
    · rw [hunfold, hex]
    · rw [if_pos hany]
      exact ⟨rfl, rfl, r, hmem, rfl, hcoll⟩
  | none =>
    by_cases hany : db.rows.any (hashCollision jobID pH ptH) = true
    · -- duplicate-entry path: reconcile through the OR LIMIT 1 lookup
      obtain ⟨x, hxmem, hxcoll⟩ := List.any_eq_true.mp hany
      cases hfc : db.rows.find? (hashCollision jobID pH ptH) with
      | none => exact absurd hxcoll (by simpa using List.find?_eq_none.mp hfc x hxmem)
      | some r =>
        refine ⟨db, r.modelId, false, hnp, hnpt, ?_, hwf, ?_⟩
        · rw [hunfold, hex, if_pos hany, hfc]
        · rw [if_pos hany]
          exact ⟨rfl, rfl, r, List.mem_of_find?_eq_some hfc, rfl, List.find?_some hfc⟩
    · -- fresh parameterization: insert, preserving the unique indices
      have hnocoll : ∀ x ∈ db.rows, hashCollision jobID pH ptH x = false := by
        intro x hx
        by_contra hcx
        exact hany (List.any_eq_true.mpr ⟨x, hx, by revert hcx; cases hashCollision jobID pH ptH x <;> simp⟩)
      refine ⟨{ rows := db.rows ++ [newModelRow db.nextModelId jobID params pH ptH connId now]
                nextModelId := db.nextModelId + 1 },
        db.nextModelId, true, hnp, hnpt, ?_, ?_, ?_⟩
      · rw [hunfold, hex, if_neg (by simp [hany])]
      · constructor
        · rw [List.pairwise_append]
          refine ⟨hwf.1, List.pairwise_singleton _ _, ?_⟩
          intro a ha b hb
          have hbnew : b = newModelRow db.nextModelId jobID params pH ptH connId now := by
            simpa using hb
          subst hbnew
          refine ⟨?_, ?_, ?_⟩
          · exact fun hid => absurd hid (Nat.ne_of_lt (hwf.2 a ha))
          · intro hand
            simp only [newModelRow] at hand
            have hcoll2 : hashCollision jobID pH ptH a = true := by
              simp [hashCollision, hand.1, hand.2]
            rw [hnocoll a ha] at hcoll2
            cases hcoll2
          · intro hand
            simp only [newModelRow] at hand
            have hcoll2 : hashCollision jobID pH ptH a = true := by
              simp [hashCollision, hand.1, hand.2]
            rw [hnocoll a ha] at hcoll2
            cases hcoll2
        · intro r hrm
          rcases List.mem_append.mp hrm with h | h
          · exact Nat.lt_trans (hwf.2 r h) (Nat.lt_succ_self _)
          · have : r = newModelRow db.nextModelId jobID params pH ptH connId now := by
              simpa using h
            rw [this]
            exact Nat.lt_succ_self _
      · rw [if_neg (by simp [hany])]
        exact ⟨rfl, rfl, rfl⟩

/-- C2 amended witness: inserting into an empty table takes the
no-collision branch. -/
theorem C2_modelInsertAndStart_amended_witness :
    ∃ pHash ptHash db2 mid ours,
      normalizeHash ['a'] = some pHash ∧
      normalizeHash ((none : Option Bytes).getD ['a']) = some ptHash ∧
      modelInsertAndStart { rows := [], nextModelId := 1000 } 7 1 "p" ['a'] none 5 =
        Except.ok (db2, mid, ours) ∧
      wfModels db2 ∧
      (if ([] : List ModelRow).any (hashCollision 1 pHash ptHash) then
        ours = false ∧ db2 = { rows := [], nextModelId := 1000 } ∧
          ∃ r ∈ ([] : List ModelRow), r.modelId = mid ∧
            hashCollision 1 pHash ptHash r = true
       else
        ours = true ∧ mid = 1000 ∧
          db2.rows = [] ++ [newModelRow 1000 1 "p" pHash ptHash 7 5]) :=
  C2_modelInsertAndStart_amended { rows := [], nextModelId := 1000 } 7 1 "p" ['a']
    none 5 (by simp [wfModels]) (by decide) (by decide)

/-! ## C7: updateCounter monotonicity -/

/-- The mutating model operations the monotonicity invariant quantifies
over: `modelSetFields`, `modelUpdateResults` (hence
`modelUpdateTimestamp`), `modelSetCompleted`, orphan adoption, and
insertion. -/
inductive MOp where
  | setFields (modelID : Nat) (fields : List (ModelField × Value))
      (ignoreUnchanged : Bool)
  | updateResults (connId modelID : Nat) (results : Option String)
      (metricValue : Option Flt) (numRecords : Option Nat) (now : Nat)
  | setCompleted (connId modelID : Nat) (reason : String) (msg : Option String)
      (cpuTime : Flt) (useConnectionID : Bool) (now : Nat)
  | adoptNextOrphan (connId jobId maxUpdateInterval now : Nat)
  | insertAndStart (connId jobID : Nat) (params : String) (paramsHash : Bytes)
      (particleHash : Option Bytes) (now : Nat)
deriving Repr

/-- The state effect of one model operation (operations that raise leave
the table exactly as their UPDATE left it). -/
def applyMOp (db : ModelsDB) : MOp → ModelsDB
  | .setFields mid fields ig =>
    { db with rows := (modelSetFields db.rows mid fields ig).1 }
  | .updateResults c mid res mv nr now =>
    { db with rows := (modelUpdateResults db.rows c mid res mv nr now).1 }
  | .setCompleted c mid re msg cpu u now =>
    { db with rows := (modelSetCompleted db.rows c mid re msg cpu u now).1 }
  | .adoptNextOrphan c j mi now =>
    { db with rows := (modelAdoptNextOrphan db.rows c j mi now).1 }
  | .insertAndStart c j p ph pth now =>
    match modelInsertAndStart db c j p ph pth now with
    | .ok (db2, _, _) => db2
    | .error _ => db

/-- `updateCounter` of the (first) row with the given `model_id`. -/
def counterOf (t : List ModelRow) (modelID : Nat) : Option Nat :=
  (t.find? (modelIdMatch modelID)).map (fun r => r.updateCounter)

theorem find?_append_some {α : Type} (l₁ l₂ : List α) (p : α → Bool) (r : α)
    (h : l₁.find? p = some r) : (l₁ ++ l₂).find? p = some r := by
  induction l₁ with
  | nil => cases h
  | cons a l ih =>
    cases hpa : p a with
    | true =>
      rw [List.find?_cons_of_pos _ hpa] at h
      rw [List.cons_append, List.find?_cons_of_pos _ hpa]
      exact h
    | false =>
      rw [List.find?_cons_of_neg _ (by simp [hpa])] at h
      rw [List.cons_append, List.find?_cons_of_neg _ (by simp [hpa])]
      exact ih h

theorem counterOf_updateRows (t : List ModelRow) (pred : ModelRow → Bool)
    (f : ModelRow → ModelRow) (hid : ∀ x, (f x).modelId = x.modelId)
    (hcnt : ∀ x, (f x).updateCounter = x.updateCounter + 1 ∨
      (f x).updateCounter = x.updateCounter)
    (m c : Nat) (hc : counterOf t m = some c) :
    ∃ c2, counterOf (updateRows t pred f) m = some c2 ∧ (c2 = c + 1 ∨ c2 = c) := by
  obtain ⟨r, hfind, hcr⟩ : ∃ r, t.find? (modelIdMatch m) = some r ∧
      r.updateCounter = c := by
    unfold counterOf at hc
    cases hf : t.find? (modelIdMatch m) with
    | none => rw [hf] at hc; cases hc
    | some r =>
      rw [hf] at hc
      exact ⟨r, rfl, by injection hc⟩
  have hq : ∀ x, modelIdMatch m (f x) = modelIdMatch m x :=
    fun x => by simp [modelIdMatch, hid]
  rw [counterOf, find?_updateRows t pred (modelIdMatch m) f hq, hfind]
  by_cases hp : pred r = true
  · refine ⟨(f r).updateCounter, by simp [hp], ?_⟩
    rcases hcnt r with h | h
    · exact Or.inl (by rw [h, hcr])
    · exact Or.inr (by rw [h, hcr])
  · exact ⟨c, by simp [hp, hcr], Or.inr rfl⟩

theorem adoptModelWithRetries_fst (t : List ModelRow)
    (connId modelID maxUpdateInterval now : Nat) :
    (adoptModelWithRetries t connId modelID maxUpdateInterval now).1 =
      updateRows t (adoptWhere modelID maxUpdateInterval now) (adoptSet connId now) := by
  show (if numRowsAffected t (adoptWhere modelID maxUpdateInterval now)
      (adoptSet connId now) = 1 then
        (updateRows t (adoptWhere modelID maxUpdateInterval now) (adoptSet connId now), true)
      else
        match List.find? (modelIdMatch modelID)
          (updateRows t (adoptWhere modelID maxUpdateInterval now) (adoptSet connId now)) with
        | some r => (updateRows t (adoptWhere modelID maxUpdateInterval now)
            (adoptSet connId now),
            decide (r.status = Status.running) && decide (r.engWorkerConnId = connId))
        | none => (updateRows t (adoptWhere modelID maxUpdateInterval now)
            (adoptSet connId now), false)).1 =
      updateRows t (adoptWhere modelID maxUpdateInterval now) (adoptSet connId now)
  by_cases h : numRowsAffected t (adoptWhere modelID maxUpdateInterval now)
      (adoptSet connId now) = 1
  · rw [if_pos h]
  · rw [if_neg h]
    cases List.find? (modelIdMatch modelID)
      (updateRows t (adoptWhere modelID maxUpdateInterval now) (adoptSet connId now)) <;> rfl

/-- C7: every mutating model operation either increments a stored row's
`updateCounter` by exactly one or leaves it unchanged — the counter never
decreases. -/
theorem C7_updateCounter_monotone (db : ModelsDB) (op : MOp) (m c : Nat)
    (hc : counterOf db.rows m = some c) :
    ∃ c2, counterOf (applyMOp db op).rows m = some c2 ∧ (c2 = c + 1 ∨ c2 = c) := by
  cases op with
  | setFields mid fields ig =>
    exact counterOf_updateRows db.rows (modelIdMatch mid) (modelSetFieldsSet fields)
      (modelSetFieldsSet_modelId fields)
      (fun x => Or.inl (modelSetFieldsSet_updateCounter fields x)) m c hc
  | updateResults cid mid res mv nr now =>
    exact counterOf_updateRows db.rows (updateResultsWhere cid mid)
      (updateResultsSet res mv nr now) (updateResultsSet_modelId res mv nr now)
      (fun x => Or.inl (updateResultsSet_updateCounter res mv nr now x)) m c hc
  | setCompleted cid mid re msg cpu u now =>
    exact counterOf_updateRows db.rows (setCompletedWhere cid mid u)
      (setCompletedSet re msg cpu now) (setCompletedSet_modelId re msg cpu now)
      (fun x => Or.inl (setCompletedSet_updateCounter re msg cpu now x)) m c hc
  | adoptNextOrphan cid j mi now =>
    show ∃ c2, counterOf (modelAdoptNextOrphan db.rows cid j mi now).1 m = some c2 ∧ _
    rw [modelAdoptNextOrphan]
    cases hcand : findCandidateModel db.rows j mi now with
    | none => exact ⟨c, hc, Or.inr rfl⟩
    | some mid =>
      show ∃ c2, counterOf (adoptModelWithRetries db.rows cid mid mi now).1 m = some c2 ∧ _
      rw [adoptModelWithRetries_fst]
      exact counterOf_updateRows db.rows (adoptWhere mid mi now) (adoptSet cid now)
        (adoptSet_modelId cid now)
        (fun x => Or.inr (adoptSet_updateCounter cid now x)) m c hc
  | insertAndStart cid j p ph pth now =>
    show ∃ c2, counterOf (match modelInsertAndStart db cid j p ph pth now with
      | .ok (db2, _, _) => db2
      | .error _ => db).rows m = some c2 ∧ _
    cases hnp : normalizeHash ph with
    | none =>
      have herr : modelInsertAndStart db cid j p ph pth now =
          Except.error DBError.assertionError := by
        rw [modelInsertAndStart]
        rw [hnp]
      rw [herr]
      exact ⟨c, hc, Or.inr rfl⟩
    | some pH =>
      cases hnpt : normalizeHash (pth.getD ph) with
      | none =>
        have herr : modelInsertAndStart db cid j p ph pth now =
            Except.error DBError.assertionError := by
          rw [modelInsertAndStart]
          rw [hnp, hnpt]
        rw [herr]
        exact ⟨c, hc, Or.inr rfl⟩
      | some ptH =>
        rw [modelInsertAndStart_eq db cid j p ph pth now pH ptH hnp hnpt]
        cases hex : findExactModelMatch db.rows j pH ptH with
        | some r => exact ⟨c, hc, Or.inr rfl⟩
        | none =>
          by_cases hany : db.rows.any (hashCollision j pH ptH) = true
          · rw [if_pos hany]
            cases hfc : db.rows.find? (hashCollision j pH ptH) with
            | some r => exact ⟨c, hc, Or.inr rfl⟩
            | none => exact ⟨c, hc, Or.inr rfl⟩
          · rw [if_neg (by simp [hany])]
            show ∃ c2, counterOf (db.rows ++
              [newModelRow db.nextModelId j p pH ptH cid now]) m = some c2 ∧ _
            obtain ⟨r, hfind, hcr⟩ : ∃ r, db.rows.find? (modelIdMatch m) = some r ∧
                r.updateCounter = c := by
              unfold counterOf at hc
              cases hf : db.rows.find? (modelIdMatch m) with
              | none => rw [hf] at hc; cases hc
              | some r =>
                rw [hf] at hc
                exact ⟨r, rfl, by injection hc⟩
            refine ⟨c, ?_, Or.inr rfl⟩
            rw [counterOf, find?_append_some db.rows _ (modelIdMatch m) r hfind]
            show some r.updateCounter = some c
            rw [hcr]

/-- C7 witness: `modelSetFields` with an empty dictionary still bumps the
counter from 0 to 1 on the stored row. -/
theorem C7_updateCounter_monotone_witness :
    ∃ c2, counterOf (applyMOp { rows := [demoModel 1000 1 7 1], nextModelId := 1001 }
      (MOp.setFields 1000 [] false)).rows 1000 = some c2 ∧ (c2 = 0 + 1 ∨ c2 = 0) :=
  C7_updateCounter_monotone { rows := [demoModel 1000 1 7 1], nextModelId := 1001 }
    (MOp.setFields 1000 [] false) 1000 0 (by decide)

/-! ## C6: unique job admission -/

/-- The jobs table together with its `AUTO_INCREMENT` counter. -/
structure JobsDB where
  rows : List JobRow
  nextJobId : Nat
deriving DecidableEq, Repr

/-- Key match on the unique index `(client, job_hash)`. -/
def clientHashMatch (client jobHash : Bytes) (r : JobRow) : Bool :=
  decide (r.client = client) && decide (r.jobHash = jobHash)

/-- The row inserted by `_insertOrGetUniqueJobNoRetries`'s `INSERT IGNORE`:
the given columns plus `_eng_last_update_time=UTC_TIMESTAMP()`; every other
column at its DDL default. -/
def newJobRow (jobId : Nat) (initStatus : Status) (client : Bytes)
    (clientInfo clientKey cmdLine params : String) (jobHash : Bytes)
    (minimumWorkers maximumWorkers : Nat) (priority : Int) (jobType : String)
    (now : Nat) : JobRow :=
  { jobId := jobId
    client := client
    clientInfo := clientInfo
    clientKey := clientKey
    cmdLine := cmdLine
    params := params
    jobHash := jobHash
    status := initStatus
    completionReason := Value.vNull
    completionMsg := Value.vNull
    workerCompletionReason := Value.vStr "success"
    workerCompletionMsg := Value.vNull
    cancel := Value.vBool false
    startTime := 0
    endTime := 0
    results := Value.vNull
    engJobType := jobType
    minimumWorkers := minimumWorkers
    maximumWorkers := maximumWorkers
    priority := priority
    engAllocateNewWorkers := Value.vBool true
    engUntendedDeadWorkers := Value.vBool false
    numFailedWorkers := 0
    lastFailedWorkerErrorMsg := Value.vNull
    engCleaningStatus := Value.vStr "notdone"
    engLastUpdateTime := now
    engCjmConnId := none
    engWorkerState := Value.vNull
    engStatus := Value.vNull
    engModelMilestones := Value.vNull }

/-- SET clause of the `alreadyRunning` post-insert update:
`_eng_cjm_conn_id=connId, start_time=now, _eng_last_update_time=now`. -/
def startAlreadyRunningSet (connId now : Nat) (r : JobRow) : JobRow :=
  { r with engCjmConnId := some connId, startTime := now, engLastUpdateTime := now }

/-- Translation of `ClientJobsDAO._insertOrGetUniqueJobNoRetries`,
sequential execution: after the `client`/`cmdLine`/hash-length asserts,
`INSERT IGNORE` keyed on `UNIQUE(client, job_hash)` — when a matching row
already exists nothing is inserted and the `jobID` is recovered by the
`(client, job_hash)` lookup; otherwise the fresh auto-increment id is
returned (the `LAST_INSERT_ID() = 0` after-reconnect artifact cannot occur
without a connection loss).  With `alreadyRunning` the connection id and
start time are stamped afterwards. -/
def insertOrGetUniqueJobNoRetries (db : JobsDB) (connId : Nat) (client : Bytes)
    (cmdLine : String) (jobHash : Bytes) (clientInfo clientKey params : String)
    (minimumWorkers maximumWorkers : Nat) (jobType : String) (priority : Int)
    (alreadyRunning : Bool) (now : Nat) : Except DBError (JobsDB × Nat) :=
  if CLIENT_MAX_LEN < client.length then .error .assertionError
  else if cmdLine = "" then .error .assertionError
  else if jobHash.length ≠ HASH_MAX_LEN then .error .assertionError
  else
    let initStatus := if alreadyRunning then Status.testMode else Status.notStarted
    let p :=
      if db.rows.any (clientHashMatch client jobHash) then
        -- numRowsInserted = 0: row with this client/hash already exists
        match db.rows.find? (clientHashMatch client jobHash) with
        | none => none
        | some row => some (db, row.jobId)
      else
        some ({ rows := db.rows ++ [newJobRow db.nextJobId initStatus client
                  clientInfo clientKey cmdLine params jobHash minimumWorkers
                  maximumWorkers priority jobType now]
                nextJobId := db.nextJobId + 1 },
              db.nextJobId)
    match p with
    | none => .error .assertionError
    | some (db1, jobID) =>
      if alreadyRunning then
        .ok ({ db1 with rows := updateRows db1.rows (jobIdMatch jobID)
                                  (startAlreadyRunningSet connId now) },
             jobID)
      else
        .ok (db1, jobID)

/-- SET clause of `jobInsertUnique`'s restart update: refresh the job's
parameters, predicated on `status=completed`. -/
def restartParamsSet (clientInfo clientKey cmdLine params : String)
    (minimumWorkers maximumWorkers : Nat) (priority : Int) (jobType : String)
    (r : JobRow) : JobRow :=
  { r with
    clientInfo := clientInfo
    clientKey := clientKey
    cmdLine := cmdLine
    params := params
    minimumWorkers := minimumWorkers
    maximumWorkers := maximumWorkers
    priority := priority
    engJobType := jobType }

/-- Translation of `ClientJobsDAO.jobInsertUnique`: look up `(client,
normalized hash)`; on a hit whose `status=completed`, refresh the job's
parameters (predicated on `status=completed`) and resume it, returning the
existing `jobId`; on a hit that is not completed, return the existing
`jobId` unchanged; on a miss, insert via
`_insertOrGetUniqueJobNoRetries`. -/
def jobInsertUnique (db : JobsDB) (connId : Nat) (client : Bytes)
    (cmdLine : String) (jobHash : Bytes) (clientInfo clientKey params : String)
    (minimumWorkers maximumWorkers : Nat) (jobType : String) (priority : Int)
    (now : Nat) : Except DBError (JobsDB × Nat) :=
  if cmdLine = "" then .error .assertionError
  else
    match normalizeHash jobHash with
    | none => .error .assertionError
    | some jobHashValue =>
      match db.rows.find? (clientHashMatch client jobHashValue) with
      | some row =>
        if row.status = Status.completed then
          let rows1 := updateRows db.rows
            (fun r => decide (r.jobId = row.jobId) && decide (r.status = Status.completed))
            (restartParamsSet clientInfo clientKey cmdLine params minimumWorkers
              maximumWorkers priority jobType)
          let rows2 := resumeJobNoRetries rows1 connId row.jobId false now
          .ok ({ db with rows := rows2 }, row.jobId)
        else
          .ok (db, row.jobId)
      | none =>
        insertOrGetUniqueJobNoRetries db connId client cmdLine jobHashValue
          clientInfo clientKey params minimumWorkers maximumWorkers jobType
          priority false now

/-- Jobs-table invariants enforced by the schema: `job_id` is the primary
key, `(client, job_hash)` is a unique index, and the auto-increment counter
is ahead of every stored id. -/
def wfJobs (db : JobsDB) : Prop :=
  db.rows.Pairwise (fun a b => a.jobId ≠ b.jobId
    ∧ ¬(a.client = b.client ∧ a.jobHash = b.jobHash))
  ∧ ∀ r ∈ db.rows, r.jobId < db.nextJobId

theorem find?_append_none {α : Type} (l₁ l₂ : List α) (p : α → Bool)
    (h : l₁.find? p = none) : (l₁ ++ l₂).find? p = l₂.find? p := by
  induction l₁ with
  | nil => rfl
  | cons a l ih =>
    cases hpa : p a with
    | true =>
      rw [List.find?_cons_of_pos _ hpa] at h
      cases h
    | false =>
      rw [List.find?_cons_of_neg _ (by simp [hpa])] at h
      rw [List.cons_append, List.find?_cons_of_neg _ (by simp [hpa])]
      exact ih h
/-- The rows produced by `jobInsertUnique`'s completed-job branch: the
parameter-refresh update (predicated on `status=completed`) followed by
`_resumeJobNoRetries`. -/
def restartedRows (db : JobsDB) (connId rowJobId : Nat)
    (ci ck cmdLine ps : String) (minW maxW : Nat) (pr : Int) (jt : String)
    (now : Nat) : List JobRow :=
  resumeJobNoRetries
    (updateRows db.rows
      (fun r => decide (r.jobId = rowJobId) && decide (r.status = Status.completed))
      (restartParamsSet ci ck cmdLine ps minW maxW pr jt))
    connId rowJobId false now

theorem jobInsertUnique_eq (db : JobsDB) (connId : Nat) (client : Bytes)
    (cmdLine : String) (jobHash : Bytes) (ci ck ps : String) (minW maxW : Nat)
    (jt : String) (pr : Int) (now : Nat) (hv : Bytes)
    (hcmd : cmdLine ≠ "") (hn : normalizeHash jobHash = some hv) :
    jobInsertUnique db connId client cmdLine jobHash ci ck ps minW maxW jt pr now =
      (match db.rows.find? (clientHashMatch client hv) with
       | some row =>
         if row.status = Status.completed then
           Except.ok ({ db with rows := restartedRows db connId row.jobId ci ck cmdLine ps minW maxW pr jt now }, row.jobId)
         else Except.ok (db, row.jobId)
       | none =>
         insertOrGetUniqueJobNoRetries db connId client cmdLine hv ci ck ps minW
           maxW jt pr false now) := by
  rw [jobInsertUnique, if_neg hcmd, hn]
  rfl

theorem insertOrGetUniqueJob_insert (db : JobsDB) (connId : Nat) (client : Bytes)
    (cmdLine : String) (hv : Bytes) (ci ck ps : String) (minW maxW : Nat)
    (jt : String) (pr : Int) (now : Nat)
    (hclient : client.length ≤ CLIENT_MAX_LEN) (hcmd : cmdLine ≠ "")
    (hlen : hv.length = HASH_MAX_LEN)
    (hany : db.rows.any (clientHashMatch client hv) = false) :
    insertOrGetUniqueJobNoRetries db connId client cmdLine hv ci ck ps minW maxW
        jt pr false now =
      Except.ok ({ rows := db.rows ++ [newJobRow db.nextJobId Status.notStarted client ci ck cmdLine ps hv minW maxW pr jt now]
                   nextJobId := db.nextJobId + 1 },
        db.nextJobId) := by
  rw [insertOrGetUniqueJobNoRetries, if_neg (Nat.not_lt.mpr hclient), if_neg hcmd]
  rw [if_neg (show ¬(hv.length ≠ HASH_MAX_LEN) from fun h => h hlen)]
  simp only [hany, Bool.false_eq_true, if_false]

/-- C6: `jobInsertUnique` called twice with the same arguments returns the
same `jobId` both times, and afterwards exactly one row with key `(client,
normalized jobHash)` exists in the table. -/
theorem C6_jobInsertUnique_idempotent (db : JobsDB) (connId : Nat)
    (client : Bytes) (cmdLine : String) (jobHash : Bytes) (ci ck ps : String)
    (minW maxW : Nat) (jt : String) (pr : Int) (now1 now2 : Nat)
    (hwf : wfJobs db) (hcmd : cmdLine ≠ "")
    (hclient : client.length ≤ CLIENT_MAX_LEN) (hhash : jobHash.length ≤ 16) :
    ∃ hv db1 id1 db2 id2,
      normalizeHash jobHash = some hv ∧
      jobInsertUnique db connId client cmdLine jobHash ci ck ps minW maxW jt pr
        now1 = Except.ok (db1, id1) ∧
      jobInsertUnique db1 connId client cmdLine jobHash ci ck ps minW maxW jt pr
        now2 = Except.ok (db2, id2) ∧
      id2 = id1 ∧
      db2.rows.countP (clientHashMatch client hv) = 1 := by
  obtain ⟨hv, hn, hvlen⟩ := normalizeHash_some_of_le jobHash hhash
  have hpw : db.rows.Pairwise (fun a b =>
      ¬(clientHashMatch client hv a = true ∧ clientHashMatch client hv b = true)) := by
    refine hwf.1.imp ?_
    intro a b hab hand
    have ha := hand.1
    have hb := hand.2
    simp only [clientHashMatch, Bool.and_eq_true, decide_eq_true_eq] at ha hb
    exact hab.2 ⟨ha.1.trans hb.1.symm, ha.2.trans hb.2.symm⟩
  have heq1 := jobInsertUnique_eq db connId client cmdLine jobHash ci ck ps minW
    maxW jt pr now1 hv hcmd hn
  cases hfind : db.rows.find? (clientHashMatch client hv) with
  | none =>
    -- miss: a fresh row is inserted and found by the second call
    have hany : db.rows.any (clientHashMatch client hv) = false := by
      cases hA : db.rows.any (clientHashMatch client hv) with
      | false => rfl
      | true =>
        obtain ⟨x, hx, hpx⟩ := List.any_eq_true.mp hA
        have := List.find?_eq_none.mp hfind x hx
        simp [hpx] at this
    have hcall1 : jobInsertUnique db connId client cmdLine jobHash ci ck ps minW
        maxW jt pr now1 =
        Except.ok ({ rows := db.rows ++ [newJobRow db.nextJobId Status.notStarted client ci ck cmdLine ps hv minW maxW pr jt now1]
                     nextJobId := db.nextJobId + 1 },
          db.nextJobId) := by
      rw [heq1, hfind]
      exact insertOrGetUniqueJob_insert db connId client cmdLine hv ci ck ps minW
        maxW jt pr now1 hclient hcmd hvlen hany
    have hpnew : clientHashMatch client hv (newJobRow db.nextJobId
        Status.notStarted client ci ck cmdLine ps hv minW maxW pr jt now1) = true := by
      simp [clientHashMatch, newJobRow]
    have hfind2 : (db.rows ++ [newJobRow db.nextJobId Status.notStarted client ci
        ck cmdLine ps hv minW maxW pr jt now1]).find? (clientHashMatch client hv) =
        some (newJobRow db.nextJobId Status.notStarted client ci ck cmdLine ps hv
          minW maxW pr jt now1) := by
      rw [find?_append_none db.rows _ _ hfind, List.find?_cons_of_pos _ hpnew]
    have heq2 := jobInsertUnique_eq
      { rows := db.rows ++ [newJobRow db.nextJobId Status.notStarted client ci ck cmdLine ps hv minW maxW pr jt now1]
        nextJobId := db.nextJobId + 1 }
      connId client cmdLine jobHash ci ck ps minW maxW jt pr now2 hv hcmd hn
    have hcall2 : jobInsertUnique
        { rows := db.rows ++ [newJobRow db.nextJobId Status.notStarted client ci ck cmdLine ps hv minW maxW pr jt now1]
          nextJobId := db.nextJobId + 1 }
        connId client cmdLine jobHash ci ck ps minW maxW jt pr now2 =
        Except.ok ({ rows := db.rows ++ [newJobRow db.nextJobId Status.notStarted client ci ck cmdLine ps hv minW maxW pr jt now1]
                     nextJobId := db.nextJobId + 1 },
          db.nextJobId) := by
      rw [heq2]
      show (match (db.rows ++ [newJobRow db.nextJobId Status.notStarted client ci
          ck cmdLine ps hv minW maxW pr jt now1]).find? (clientHashMatch client hv) with
        | some row => _
        | none => _) = _
      rw [hfind2]
      rfl
    refine ⟨hv, _, db.nextJobId, _, db.nextJobId, hn, hcall1, hcall2, rfl, ?_⟩
    rw [List.countP_append]
    have h0 : db.rows.countP (clientHashMatch client hv) = 0 := by
      rw [List.countP_eq_zero]
      intro x hx
      simpa using List.find?_eq_none.mp hfind x hx
    rw [h0]
    simp [hpnew]
  | some row =>
    have hrowmem : row ∈ db.rows := List.mem_of_find?_eq_some hfind
    have hrowq : clientHashMatch client hv row = true := List.find?_some hfind
    have hcnt1 : db.rows.countP (clientHashMatch client hv) = 1 :=
      countP_eq_one_of_pairwise_mem db.rows _ row hpw hrowmem hrowq
    by_cases hst : row.status = Status.completed
    · -- hit on a completed job: parameters refreshed, job resumed
      have hcall1 : jobInsertUnique db connId client cmdLine jobHash ci ck ps
          minW maxW jt pr now1 =
          Except.ok ({ db with rows := restartedRows db connId row.jobId ci ck cmdLine ps minW maxW pr jt now1 }, row.jobId) := by
        rw [heq1, hfind]
        show (if row.status = Status.completed then _ else _) = _
        rw [if_pos hst]
      have hfr1 : (updateRows db.rows
          (fun r => decide (r.jobId = row.jobId) &&
            decide (r.status = Status.completed))
          (restartParamsSet ci ck cmdLine ps minW maxW pr jt)).find?
          (clientHashMatch client hv) =
          some (restartParamsSet ci ck cmdLine ps minW maxW pr jt row) := by
        rw [find?_updateRows db.rows _ (clientHashMatch client hv)
          (restartParamsSet ci ck cmdLine ps minW maxW pr jt) (fun x => rfl), hfind]
        show some (if decide (row.jobId = row.jobId) &&
          decide (row.status = Status.completed) then _ else _) = _
        rw [if_pos (by simp [hst])]
      have hfr2 : (restartedRows db connId row.jobId ci ck cmdLine ps minW maxW
          pr jt now1).find? (clientHashMatch client hv) =
          some (resumeSet connId false now1
            (restartParamsSet ci ck cmdLine ps minW maxW pr jt row)) := by
        rw [restartedRows, resumeJobNoRetries, find?_updateRows _
          (resumeWhere row.jobId) (clientHashMatch client hv)
          (resumeSet connId false now1) (fun x => rfl), hfr1]
        show some (if resumeWhere row.jobId
          (restartParamsSet ci ck cmdLine ps minW maxW pr jt row) then _ else _) = _
        rw [if_pos (by simp [resumeWhere, restartParamsSet, hst])]
      have heq2 := jobInsertUnique_eq
        { db with rows := restartedRows db connId row.jobId ci ck cmdLine ps minW maxW pr jt now1 }
        connId client cmdLine jobHash ci ck ps minW maxW jt pr now2 hv hcmd hn
      have hcall2 : jobInsertUnique
          { db with rows := restartedRows db connId row.jobId ci ck cmdLine ps minW maxW pr jt now1 }
          connId client cmdLine jobHash ci ck ps minW maxW jt pr now2 =
          Except.ok ({ db with rows := restartedRows db connId row.jobId ci ck cmdLine ps minW maxW pr jt now1 }, row.jobId) := by
        rw [heq2]
        show (match (restartedRows db connId row.jobId ci ck cmdLine ps minW maxW
            pr jt now1).find? (clientHashMatch client hv) with
          | some row2 => _
          | none => _) = _
        rw [hfr2]
        rfl
      refine ⟨hv, _, row.jobId, _, row.jobId, hn, hcall1, hcall2, rfl, ?_⟩
      show (restartedRows db connId row.jobId ci ck cmdLine ps minW maxW pr jt
        now1).countP (clientHashMatch client hv) = 1
      rw [restartedRows, resumeJobNoRetries,
        countP_updateRows _ (resumeWhere row.jobId) (clientHashMatch client hv)
          (resumeSet connId false now1) (fun x => rfl),
        countP_updateRows _
          (fun r => decide (r.jobId = row.jobId) &&
            decide (r.status = Status.completed))
          (clientHashMatch client hv)
          (restartParamsSet ci ck cmdLine ps minW maxW pr jt) (fun x => rfl)]
      exact hcnt1
    · -- hit on a live job: nothing changes
      have hcall1 : jobInsertUnique db connId client cmdLine jobHash ci ck ps
          minW maxW jt pr now1 = Except.ok (db, row.jobId) := by
        rw [heq1, hfind]
        show (if row.status = Status.completed then _ else _) = _
        rw [if_neg hst]
      have heq2 := jobInsertUnique_eq db connId client cmdLine jobHash ci ck ps
        minW maxW jt pr now2 hv hcmd hn
      have hcall2 : jobInsertUnique db connId client cmdLine jobHash ci ck ps
          minW maxW jt pr now2 = Except.ok (db, row.jobId) := by
        rw [heq2, hfind]
        show (if row.status = Status.completed then _ else _) = _
        rw [if_neg hst]
      exact ⟨hv, db, row.jobId, db, row.jobId, hn, hcall1, hcall2, rfl, hcnt1⟩

/-- C6 witness: inserting the same `(client, hash)` twice into an empty
table. -/
theorem C6_jobInsertUnique_idempotent_witness :
    ∃ hv db1 id1 db2 id2,
      normalizeHash ['h'] = some hv ∧
      jobInsertUnique { rows := [], nextJobId := 1000 } 7 ['U', 'I'] "run" ['h']
        "" "" "" 0 0 "test" 0 3 = Except.ok (db1, id1) ∧
      jobInsertUnique db1 7 ['U', 'I'] "run" ['h'] "" "" "" 0 0 "test" 0 4 =
        Except.ok (db2, id2) ∧
      id2 = id1 ∧
      db2.rows.countP (clientHashMatch ['U', 'I'] hv) = 1 :=
  C6_jobInsertUnique_idempotent { rows := [], nextJobId := 1000 } 7 ['U', 'I']
    "run" ['h'] "" "" "" 0 0 "test" 0 3 4 ⟨List.Pairwise.nil, by simp⟩
    (by decide) (by decide) (by decide)

end ClientJobsDAO
